import Mathlib

/-!
Shallow embedding of the TPM2 resource manager core
(`src/resource-manager.c` of tpm2-abrmd).

The embedding is purely functional: the per-connection transient
`HandleMap` is threaded explicitly through every operation, the access
broker is a record of pure functions, and every call the resource
manager makes into the broker is recorded in a `BrokerCall` trace so
that statements such as "the broker is never contacted" are expressible.

`HandleMapEntry` objects are heap-allocated and mutated through pointers
in the C source; here an entry is identified by the map key under which
it is stored (the real `handle_map_insert` always stores an entry under
its own `vhandle`, and the spec lists `map contains E at key E.vhandle`
as an invariant), so a pointer write becomes an update of the map at
that key.
-/


/-- Shift that extracts the handle-type byte (`HR_SHIFT` from the TPM headers). -/
def HR_SHIFT : Nat := 24

/-- Handle type byte of transient objects (`TPM_HT_TRANSIENT`). -/
def TPM_HT_TRANSIENT : Nat := 0x80

/-- Handle type byte of policy sessions (`TPM_HT_POLICY_SESSION`). -/
def TPM_HT_POLICY_SESSION : Nat := 0x03

/-- Command code of `TPM2_FlushContext`. -/
def TPM_CC_FlushContext : Nat := 0x165

/-- Command code of `TPM2_CreatePrimary`. -/
def TPM_CC_CreatePrimary : Nat := 0x131

/-- Command code of `TPM2_Load`. -/
def TPM_CC_Load : Nat := 0x157

/-- Command code of `TPM2_LoadExternal`. -/
def TPM_CC_LoadExternal : Nat := 0x167

/-- Success response code (`TSS2_RC_SUCCESS`). -/
def TSS2_RC_SUCCESS : Nat := 0

/-- Resource-manager error level, placed in the upper bits of synthesized
response codes (`TSS2_RESMGR_ERROR_LEVEL` from `tabrmd.h`: level 11 shifted
by the TSS2 level shift of 16). -/
def TSS2_RESMGR_ERROR_LEVEL : Nat := 11 * 2 ^ 16

/-- TPM format-one response code `TPM_RC_HANDLE`. -/
def TPM_RC_HANDLE : Nat := 0x08B

/-- TPM response-code modifier marking a parameter (`TPM_RC_P`). -/
def TPM_RC_P : Nat := 0x040

/-- TPM response-code modifier naming the first parameter (`TPM_RC_1`). -/
def TPM_RC_1 : Nat := 0x100

/-- TPM response code `TPM_RC_OBJECT_MEMORY` (out of transient object memory). -/
def TPM_RC_OBJECT_MEMORY : Nat := 0x102

/-- TSS2 base response code `TSS2_BASE_RC_GENERAL_FAILURE`. -/
def TSS2_BASE_RC_GENERAL_FAILURE : Nat := 13

/-- The `RM_RC` macro from `resource-manager.c` line 41:
`TSS2_RESMGR_ERROR_LEVEL + rc`. -/
def RM_RC (rc : Nat) : Nat := TSS2_RESMGR_ERROR_LEVEL + rc

/-- Quota-rejection response code (`TSS2_RESMGR_RC_OBJECT_MEMORY` from
`tabrmd.h`): the RESMGR error level combined with `TPM_RC_OBJECT_MEMORY`. -/
def TSS2_RESMGR_RC_OBJECT_MEMORY : Nat := RM_RC TPM_RC_OBJECT_MEMORY

/-- One live virtualized object: binding of a virtual handle to its
currently assigned physical handle (0 when the context is swapped out)
and the latest saved-context blob.  Saved contexts are opaque to the
core, so a blob is modelled as a `Nat` identifier (0 = the empty context
a fresh entry starts with). -/
structure HandleMapEntry where
  vhandle : Nat
  phandle : Nat
  context : Nat
deriving DecidableEq, Repr

/-- Per-connection transient handle map.  Modelled from the spec: a map
from vhandle to entry (association list, first binding wins), a
per-connection capacity, and the monotonic allocator state behind
`next_vhandle`. -/
structure HandleMap where
  entries : List (Nat × HandleMapEntry)
  capacity : Nat
  nextOffset : Nat
deriving DecidableEq, Repr

/-- Modelled from the spec: `vlookup(vhandle) -> entry?` borrows the entry
bound to a virtual handle. -/
def handle_map_vlookup (m : HandleMap) (v : Nat) : Option HandleMapEntry :=
  (m.entries.find? (fun p => p.1 == v)).map (fun p => p.2)

/-- Modelled from the spec: `insert(vhandle, entry)` binds a fresh vhandle
(lookup returns the first binding, so inserting an already-bound key has
no visible effect, matching "fails if already bound"). -/
def handle_map_insert (m : HandleMap) (v : Nat) (e : HandleMapEntry) : HandleMap :=
  { m with entries := m.entries ++ [(v, e)] }

/-- Modelled from the spec: `remove(vhandle)` removes the binding. -/
def handle_map_remove (m : HandleMap) (v : Nat) : HandleMap :=
  { m with entries := m.entries.filter (fun p => p.1 != v) }

/-- Modelled from the spec: `is_full()` is true iff `size() == capacity`. -/
def handle_map_is_full (m : HandleMap) : Bool :=
  m.entries.length == m.capacity

/-- Modelled from the spec: `next_vhandle()` advances a monotonic allocator
over the 32-bit transient range starting at base `0x80000000`; the value 0
(possible only after the 32-bit space wraps) signals exhaustion to the
caller, which treats it as fatal. -/
def handle_map_next_vhandle (m : HandleMap) : Nat × HandleMap :=
  ((0x80000000 + m.nextOffset) % 2 ^ 32, { m with nextOffset := m.nextOffset + 1 })

/-- Pointer mutation of the entry stored at key `v`: the C code mutates a
`HandleMapEntry` through a shared pointer, which the map also holds. -/
def handle_map_modify_entry (m : HandleMap) (v : Nat)
    (f : HandleMapEntry → HandleMapEntry) : HandleMap :=
  { m with entries := m.entries.map (fun p => if p.1 == v then (p.1, f p.2) else p) }

/-- The `handle_map_entry_set_phandle` pointer write, expressed on the map. -/
def handle_map_set_entry_phandle (m : HandleMap) (v : Nat) (ph : Nat) : HandleMap :=
  handle_map_modify_entry m v (fun e => { e with phandle := ph })

/-- Replacement of the whole entry stored at key `v` (used to write back the
entry returned by `resource_manager_flushsave_context`). -/
def handle_map_set_entry (m : HandleMap) (v : Nat) (e : HandleMapEntry) : HandleMap :=
  handle_map_modify_entry m v (fun _ => e)

/-- `handle_map_entry_new (phandle, vhandle)`: fresh entry with an empty
saved context. -/
def handle_map_entry_new (phandle vhandle : Nat) : HandleMapEntry :=
  { vhandle := vhandle, phandle := phandle, context := 0 }

/-- A `Tpm2Command`: the owning connection (an identifier), the command
code, the handle-area slots, and the `FlushContext` target handle that
lives in the parameter area and is reached through its own accessor. -/
structure Tpm2Command where
  conn : Nat
  code : Nat
  handles : List Nat
  flushHandle : Nat
deriving DecidableEq, Repr

/-- `tpm2_command_get_code`. -/
def tpm2_command_get_code (c : Tpm2Command) : Nat := c.code

/-- `tpm2_command_get_handle_count`: number of handle-area slots. -/
def tpm2_command_get_handle_count (c : Tpm2Command) : Nat := c.handles.length

/-- `tpm2_command_set_handle (command, phandle, handle_number)`. -/
def tpm2_command_set_handle (c : Tpm2Command) (ph : Nat) (i : Nat) : Tpm2Command :=
  { c with handles := c.handles.set i ph }

/-- `tpm2_command_get_flush_handle`. -/
def tpm2_command_get_flush_handle (c : Tpm2Command) : Nat := c.flushHandle

/-- A `Tpm2Response`: owning connection, response code, whether the
response's attributes report a handle, and that handle. -/
structure Tpm2Response where
  conn : Nat
  rc : Nat
  hasHandle : Bool
  handle : Nat
deriving DecidableEq, Repr

/-- `tpm2_response_new_rc (connection, rc)`: synthesized response carrying
`rc`, with no handle, built against the given connection. -/
def tpm2_response_new_rc (conn rc : Nat) : Tpm2Response :=
  { conn := conn, rc := rc, hasHandle := false, handle := 0 }

/-- `tpm2_response_has_handle`. -/
def tpm2_response_has_handle (r : Tpm2Response) : Bool := r.hasHandle

/-- `tpm2_response_get_handle`. -/
def tpm2_response_get_handle (r : Tpm2Response) : Nat := r.handle

/-- `tpm2_response_set_handle`. -/
def tpm2_response_set_handle (r : Tpm2Response) (h : Nat) : Tpm2Response :=
  { r with handle := h }

/-- The access broker as the core consumes it: three pure operations.
`context_load` maps a saved context to `(rc, phandle)`, `context_saveflush`
maps a physical handle to `(rc, new saved context)`, and `send_command`
maps a command to `(response?, rc)` where `none` models the C NULL
response. -/
structure AccessBroker where
  context_load : Nat → Nat × Nat
  context_saveflush : Nat → Nat × Nat
  send_command : Tpm2Command → Option Tpm2Response × Nat

/-- Trace of the calls the resource manager makes into the access broker. -/
inductive BrokerCall where
  | load (context : Nat)
  | saveflush (phandle : Nat)
  | send (cmd : Tpm2Command)
deriving DecidableEq, Repr

/-- Result of `resource_manager_virt_to_phys`. -/
structure VirtToPhysResult where
  rc : Nat
  map : HandleMap
  cmd : Tpm2Command
  calls : List BrokerCall
deriving DecidableEq, Repr

/-- `resource_manager_virt_to_phys` (lines 73-93): load the entry's
context, and on success store the fresh physical handle in the entry and
write it into handle slot `handle_number` of the command.  The load is
attempted unconditionally; there is no check of the entry's current
`phandle`. -/
def resource_manager_virt_to_phys (brk : AccessBroker) (map : HandleMap)
    (command : Tpm2Command) (entry : HandleMapEntry) (handle_number : Nat) :
    VirtToPhysResult :=
  let context := entry.context
  let rc := (brk.context_load context).1
  let phandle := (brk.context_load context).2
  if rc == TSS2_RC_SUCCESS then
    { rc := rc
      map := handle_map_set_entry_phandle map entry.vhandle phandle
      cmd := tpm2_command_set_handle command phandle handle_number
      calls := [BrokerCall.load context] }
  else
    { rc := rc, map := map, cmd := command, calls := [BrokerCall.load context] }

/-- Result of `resource_manager_load_contexts`: the returned rc, the
updated map and command, the 4-slot `entries` array (a slot holds the
vhandle identifying the touched entry, `none` while uninitialized), the
final `entry_count`, the broker-call trace, and a flag recording an
out-of-bounds array write. -/
structure LoadContextsResult where
  rc : Nat
  map : HandleMap
  cmd : Tpm2Command
  entries : List (Option Nat)
  entry_count : Nat
  calls : List BrokerCall
  ub : Bool
deriving DecidableEq, Repr

/-- The write `entries[i] = e` on the fixed-size C array: in-bounds writes
update the slot, an out-of-bounds write is recorded in the second
component. -/
def entriesWrite (arr : List (Option Nat)) (i : Nat) (e : Option Nat) :
    List (Option Nat) × Bool :=
  if i < arr.length then (arr.set i e, false) else (arr, true)

/-- The `for` loop of `resource_manager_load_contexts` (lines 126-152).
`hs` is the snapshot of the handle area taken by
`tpm2_command_get_handles`, `i` the current slot index.  A transient
handle without a map entry is skipped (`continue`); a failed load only
`break`s the inner `switch`, so the failing entry is not appended and the
loop continues with the next slot; a successful load appends the entry at
`entries[entry_count]` and increments the count. -/
def load_contexts_loop (brk : AccessBroker) (map : HandleMap) (cmd : Tpm2Command)
    (hs : List Nat) (i : Nat) (arr : List (Option Nat)) (ec : Nat) (rc : Nat)
    (calls : List BrokerCall) (ub : Bool) : LoadContextsResult :=
  match hs with
  | [] => { rc := rc, map := map, cmd := cmd, entries := arr, entry_count := ec,
            calls := calls, ub := ub }
  | h :: rest =>
    if h / 2 ^ HR_SHIFT == TPM_HT_TRANSIENT then
      match handle_map_vlookup map h with
      | none => load_contexts_loop brk map cmd rest (i + 1) arr ec rc calls ub
      | some entry =>
        let r := resource_manager_virt_to_phys brk map cmd entry i
        if r.rc == TSS2_RC_SUCCESS then
          let w := entriesWrite arr ec (some h)
          load_contexts_loop brk r.map r.cmd rest (i + 1) w.1 (ec + 1) r.rc
            (calls ++ r.calls) (ub || w.2)
        else
          load_contexts_loop brk r.map r.cmd rest (i + 1) arr ec r.rc
            (calls ++ r.calls) ub
    else
      load_contexts_loop brk map cmd rest (i + 1) arr ec rc calls ub

/-- `resource_manager_load_contexts` (lines 99-157).  The NULL-parameter
guard of the C code has no counterpart here.  When `handle_count`
exceeds the capacity passed in `entry_count`, the function returns a
general-failure rc and leaves `entry_count` (and the array) untouched;
otherwise `entry_count` is reset to 0 and the loop runs over the handle
area. -/
def resource_manager_load_contexts (brk : AccessBroker) (map : HandleMap)
    (command : Tpm2Command) (arr : List (Option Nat)) (entry_count : Nat) :
    LoadContextsResult :=
  let handle_count := tpm2_command_get_handle_count command
  if handle_count > entry_count then
    { rc := RM_RC TSS2_BASE_RC_GENERAL_FAILURE, map := map, cmd := command,
      entries := arr, entry_count := entry_count, calls := [], ub := false }
  else
    load_contexts_loop brk map command command.handles 0 arr 0 TSS2_RC_SUCCESS [] false

/-- Result of `resource_manager_flushsave_context` on one entry. -/
structure FlushsaveResult where
  rc : Nat
  entry : HandleMapEntry
  calls : List BrokerCall
deriving DecidableEq, Repr

/-- `resource_manager_flushsave_context` (lines 164-197): if the entry's
physical handle is in the transient range, save and flush its context; on
success the saved blob replaces the entry's context and the physical
handle is cleared to 0, on failure the entry is left as it was.
Non-transient physical handles (in particular 0, meaning already
swapped out) are skipped without contacting the broker. -/
def resource_manager_flushsave_context (brk : AccessBroker)
    (entry : HandleMapEntry) : FlushsaveResult :=
  let phandle := entry.phandle
  if phandle / 2 ^ HR_SHIFT == TPM_HT_TRANSIENT then
    let rc := (brk.context_saveflush phandle).1
    let newContext := (brk.context_saveflush phandle).2
    if rc == TSS2_RC_SUCCESS then
      { rc := rc, entry := { entry with context := newContext, phandle := 0 },
        calls := [BrokerCall.saveflush phandle] }
    else
      { rc := rc, entry := entry, calls := [BrokerCall.saveflush phandle] }
  else
    { rc := TSS2_RC_SUCCESS, entry := entry, calls := [] }

/-- Result of `resource_manager_virtualize_handle`: the returned entry
(identified by its vhandle, `none` when nothing was virtualized), the
updated map, the possibly rewritten response, and whether the vhandle
allocator rolled over (`g_error`, aborting the process). -/
structure VirtualizeResult where
  entry : Option Nat
  map : HandleMap
  resp : Tpm2Response
  fatal : Bool
deriving DecidableEq, Repr

/-- `resource_manager_virtualize_handle` (lines 208-241): when the handle
reported by the response is transient, allocate a fresh vhandle, insert a
new entry mapping it to the physical handle (with an empty context), and
overwrite the response's handle with the vhandle.  Any other handle type
leaves the response and the map untouched and returns no entry. -/
def resource_manager_virtualize_handle (map : HandleMap)
    (response : Tpm2Response) : VirtualizeResult :=
  let phandle := tpm2_response_get_handle response
  if phandle / 2 ^ HR_SHIFT == TPM_HT_TRANSIENT then
    let vhandle := (handle_map_next_vhandle map).1
    let map1 := (handle_map_next_vhandle map).2
    if vhandle == 0 then
      { entry := none, map := map1, resp := response, fatal := true }
    else
      let entry := handle_map_entry_new phandle vhandle
      { entry := some vhandle, map := handle_map_insert map1 vhandle entry,
        resp := tpm2_response_set_handle response vhandle, fatal := false }
  else
    { entry := none, map := map, resp := response, fatal := false }

/-- Result of `resource_manager_flush_context`: the response to enqueue
(`none` models a NULL `Tpm2Response*`), the updated map, and the
broker-call trace. -/
structure FlushContextResult where
  resp : Option Tpm2Response
  map : HandleMap
  calls : List BrokerCall
deriving DecidableEq, Repr

/-- `resource_manager_flush_context` (lines 264-318).  A non-FlushContext
command code returns `TSS2_RC_SUCCESS` through the `Tpm2Response*` return
type, i.e. a NULL pointer (`none`).  A transient target handle is handled
locally: present entries are removed from the map with a synthesized
success response, absent ones yield a synthesized handle/parameter/1
error; either way the broker is not contacted.  Any other handle type
forwards the command to the broker unchanged. -/
def resource_manager_flush_context (brk : AccessBroker) (map : HandleMap)
    (command : Tpm2Command) : FlushContextResult :=
  if tpm2_command_get_code command != TPM_CC_FlushContext then
    { resp := none, map := map, calls := [] }
  else
    let handle := tpm2_command_get_flush_handle command
    let handle_type := handle / 2 ^ HR_SHIFT
    if handle_type == TPM_HT_TRANSIENT then
      match handle_map_vlookup map handle with
      | some _ =>
        { resp := some (tpm2_response_new_rc command.conn TSS2_RC_SUCCESS),
          map := handle_map_remove map handle, calls := [] }
      | none =>
        { resp := some (tpm2_response_new_rc command.conn
            (RM_RC (TPM_RC_HANDLE + TPM_RC_P + TPM_RC_1))),
          map := map, calls := [] }
    else
      { resp := (brk.send_command command).1, map := map,
        calls := [BrokerCall.send command] }

/-- `resource_manager_is_over_object_quota` (lines 323-346): only the
object-loading commands `CreatePrimary`, `Load` and `LoadExternal` are
checked; for them the connection's transient map being full means the
quota is exceeded. -/
def resource_manager_is_over_object_quota (map : HandleMap)
    (command : Tpm2Command) : Bool :=
  if tpm2_command_get_code command == TPM_CC_CreatePrimary
      || tpm2_command_get_code command == TPM_CC_Load
      || tpm2_command_get_code command == TPM_CC_LoadExternal then
    handle_map_is_full map
  else
    false

/-- Result of the eviction loop over the touched-entry array. -/
structure EvictResult where
  map : HandleMap
  calls : List BrokerCall
  touched : List Nat
  ub : Bool
deriving DecidableEq, Repr

/-- The final loop of `resource_manager_process_tpm2_command`
(lines 427-432) over the first `entry_count` slots of the `entries`
array: `resource_manager_flushsave_context` on each stored entry.
Visiting an uninitialized slot (`none`) is a read of garbage C memory and
sets the `ub` flag.  A stored vhandle no longer present in the map cannot
arise in the modelled flows (nothing removes entries while a command is
in flight); such a slot is skipped. -/
def resource_manager_evict_entries (brk : AccessBroker) (map : HandleMap) :
    List (Option Nat) → EvictResult
  | [] => { map := map, calls := [], touched := [], ub := false }
  | none :: rest =>
    let r := resource_manager_evict_entries brk map rest
    { map := r.map, calls := r.calls, touched := r.touched, ub := true }
  | some vh :: rest =>
    match handle_map_vlookup map vh with
    | none => resource_manager_evict_entries brk map rest
    | some entry =>
      let fr := resource_manager_flushsave_context brk entry
      let map1 := handle_map_set_entry map vh fr.entry
      let r := resource_manager_evict_entries brk map1 rest
      { map := r.map, calls := fr.calls ++ r.calls, touched := vh :: r.touched,
        ub := r.ub }

/-- `ENTRY_COUNT` (line 364): size of the touched-entry array. -/
def ENTRY_COUNT : Nat := 4

/-- Result of processing one command: the connection's transient map
afterwards, the objects enqueued on the sink (in order; `none` models a
NULL pointer being enqueued), the broker-call trace, the vhandles the
eviction loop actually visited, whether the process aborted fatally
(vhandle rollover `g_error`), and whether uninitialized array memory was
touched. -/
structure ProcResult where
  map : HandleMap
  sink : List (Option Tpm2Response)
  calls : List BrokerCall
  touched : List Nat
  fatal : Bool
  ub : Bool
deriving DecidableEq, Repr

/-- `resource_manager_process_tpm2_command` (lines 365-433), with `map`
the transient map of the command's connection.  Over-quota commands are
rejected with a synthesized `TSS2_RESMGR_RC_OBJECT_MEMORY` response and
nothing else happens.  `FlushContext` is routed to
`resource_manager_flush_context` with `entry_count = 0`.  Every other
command has its contexts loaded (the rc of
`resource_manager_load_contexts` is discarded by the caller), is sent to
the broker (a NULL response is replaced by a synthesized one carrying the
broker's rc), has a transient response handle virtualized and the new
entry appended at `entries[entry_count]`, gets its response enqueued, and
finally the eviction loop runs over the touched entries. -/
def resource_manager_process_tpm2_command (brk : AccessBroker)
    (map : HandleMap) (command : Tpm2Command) : ProcResult :=
  if resource_manager_is_over_object_quota map command then
    { map := map,
      sink := [some (tpm2_response_new_rc command.conn TSS2_RESMGR_RC_OBJECT_MEMORY)],
      calls := [], touched := [], fatal := false, ub := false }
  else if tpm2_command_get_code command == TPM_CC_FlushContext then
    let fr := resource_manager_flush_context brk map command
    { map := fr.map, sink := [fr.resp], calls := fr.calls, touched := [],
      fatal := false, ub := false }
  else
    let lr : LoadContextsResult :=
      if tpm2_command_get_handle_count command > 0 then
        resource_manager_load_contexts brk map command
          (List.replicate ENTRY_COUNT none) (ENTRY_COUNT - 1)
      else
        { rc := TSS2_RC_SUCCESS, map := map, cmd := command,
          entries := List.replicate ENTRY_COUNT none, entry_count := 0,
          calls := [], ub := false }
    let sc := brk.send_command lr.cmd
    let response : Tpm2Response :=
      match sc.1 with
      | some r => r
      | none => tpm2_response_new_rc command.conn sc.2
    let calls1 := lr.calls ++ [BrokerCall.send lr.cmd]
    if tpm2_response_has_handle response then
      let vr := resource_manager_virtualize_handle lr.map response
      if vr.fatal then
        { map := vr.map, sink := [], calls := calls1, touched := [],
          fatal := true, ub := lr.ub }
      else
        let w := entriesWrite lr.entries lr.entry_count vr.entry
        let ec1 := if vr.entry.isSome then lr.entry_count + 1 else lr.entry_count
        let er := resource_manager_evict_entries brk vr.map (w.1.take ec1)
        { map := er.map, sink := [some vr.resp], calls := calls1 ++ er.calls,
          touched := er.touched, fatal := false,
          ub := lr.ub || w.2 || er.ub || decide (w.1.length < ec1) }
    else
      let er := resource_manager_evict_entries brk lr.map
        (lr.entries.take lr.entry_count)
      { map := er.map, sink := [some response], calls := calls1 ++ er.calls,
        touched := er.touched, fatal := false,
        ub := lr.ub || er.ub || decide (lr.entries.length < lr.entry_count) }

/-- A broker whose every operation succeeds. -/
def witBroker : AccessBroker :=
  { context_load := fun ctx => (0, 0x80000000 + ctx)
    context_saveflush := fun ph => (0, 1000 + ph)
    send_command := fun c =>
      (some { conn := c.conn, rc := 0, hasHandle := false, handle := 0 }, 0) }

/-- A map holding one swapped-out transient object at vhandle 0x80000001. -/
def witMap : HandleMap :=
  { entries := [(0x80000001, { vhandle := 0x80000001, phandle := 0, context := 7 })],
    capacity := 27, nextOffset := 2 }

/-- The same map at capacity 1, i.e. full. -/
def witMapFull : HandleMap :=
  { entries := [(0x80000001, { vhandle := 0x80000001, phandle := 0, context := 7 })],
    capacity := 1, nextOffset := 2 }

/-- A broker whose `context_load` always fails with rc 0x101 but whose
`send_command` succeeds. -/
def ceBrokerLoadFail : AccessBroker :=
  { context_load := fun _ => (0x101, 0)
    context_saveflush := fun ph => (0, 500 + ph)
    send_command := fun c =>
      (some { conn := c.conn, rc := 0, hasHandle := false, handle := 0 }, 0) }

/-- A broker whose `send_command` returns a NULL response with rc 0x9A. -/
def ceBrokerNullSend : AccessBroker :=
  { context_load := fun _ => (0x101, 0)
    context_saveflush := fun ph => (0, 500 + ph)
    send_command := fun _ => (none, 0x9A) }

/-- An ordinary one-handle command referencing vhandle 0x80000001. -/
def ceUseCmd : Tpm2Command :=
  { conn := 1, code := 0x153, handles := [0x80000001], flushHandle := 0 }

/-- A map whose entry at 0x80000001 still holds physical handle 0x80000042
(as left behind by a failed saveflush). -/
def ceMapPhandleSet : HandleMap :=
  { entries := [(0x80000001,
      { vhandle := 0x80000001, phandle := 0x80000042, context := 42 })],
    capacity := 27, nextOffset := 2 }

/-- A FlushContext command targeting the session handle 0x03000000. -/
def ceSessionFlushCmd : Tpm2Command :=
  { conn := 1, code := TPM_CC_FlushContext, handles := [], flushHandle := 0x03000000 }

/-- Well-formedness of a handle map: every entry is stored under its own
vhandle (the invariant the real `handle_map_insert` maintains). -/
def handle_map_wf (m : HandleMap) : Prop :=
  ∀ p ∈ m.entries, (p.2).vhandle = p.1

/-- The entry at `vh` (if any) holds no physical slot, or its saveflush
fails. -/
def entry_done (brk : AccessBroker) (m : HandleMap) (vh : Nat) : Prop :=
  ∀ e, handle_map_vlookup m vh = some e →
    e.phandle = 0 ∨ (brk.context_saveflush e.phandle).1 ≠ TSS2_RC_SUCCESS

/-- The entry at `vh` (if any) holds no physical slot, holds a transient
one, or its saveflush fails — the precondition under which one eviction
pass leaves it `entry_done`. -/
def entry_ready (brk : AccessBroker) (m : HandleMap) (vh : Nat) : Prop :=
  ∀ e, handle_map_vlookup m vh = some e →
    e.phandle = 0 ∨ e.phandle / 2 ^ HR_SHIFT = TPM_HT_TRANSIENT ∨
      (brk.context_saveflush e.phandle).1 ≠ TSS2_RC_SUCCESS

/-- A broker whose loads succeed and always hand out the transient
physical handle 0x80000001. -/
def witBroker8 : AccessBroker :=
  { context_load := fun _ => (0, 0x80000001)
    context_saveflush := fun ph => (0, 1000 + ph)
    send_command := fun c =>
      (some { conn := c.conn, rc := 0, hasHandle := false, handle := 0 }, 0) }

/-- A broker whose send returns a response carrying the transient
physical handle 0x80000001. -/
def witBrokerCP : AccessBroker :=
  { context_load := fun _ => (0, 0x80000001)
    context_saveflush := fun ph => (0, 1000 + ph)
    send_command := fun c =>
      (some { conn := c.conn, rc := 0, hasHandle := true, handle := 0x80000001 }, 0) }

/-- An empty transient map with allocator at the base of the range. -/
def witMapEmpty : HandleMap := { entries := [], capacity := 27, nextOffset := 0 }

/-- A CreatePrimary command with no handles in its handle area. -/
def witCmdCP : Tpm2Command :=
  { conn := 1, code := TPM_CC_CreatePrimary, handles := [], flushHandle := 0 }

/-- The broker response produced for `witCmdCP`. -/
def witRespCP : Tpm2Response :=
  { conn := 1, rc := 0, hasHandle := true, handle := 0x80000001 }

/-! ### Theorems -/

theorem is_over_quota_false_of_flush (m : HandleMap) (cmd : Tpm2Command)
    (h : tpm2_command_get_code cmd = TPM_CC_FlushContext) :
    resource_manager_is_over_object_quota m cmd = false := by
  simp only [resource_manager_is_over_object_quota, tpm2_command_get_code] at *
  simp [h, TPM_CC_FlushContext, TPM_CC_CreatePrimary, TPM_CC_Load, TPM_CC_LoadExternal]

/-- CLAIM C4: FlushContext on a transient handle present in the map
removes the entry, synthesizes a success response, and never contacts the
broker. -/
theorem claim_C4 (brk : AccessBroker) (m : HandleMap) (cmd : Tpm2Command)
    (e : HandleMapEntry)
    (hcode : tpm2_command_get_code cmd = TPM_CC_FlushContext)
    (htype : tpm2_command_get_flush_handle cmd / 2 ^ HR_SHIFT = TPM_HT_TRANSIENT)
    (hlook : handle_map_vlookup m (tpm2_command_get_flush_handle cmd) = some e) :
    resource_manager_process_tpm2_command brk m cmd =
      { map := handle_map_remove m (tpm2_command_get_flush_handle cmd),
        sink := [some (tpm2_response_new_rc cmd.conn TSS2_RC_SUCCESS)],
        calls := [], touched := [], fatal := false, ub := false } := by
  have hq := is_over_quota_false_of_flush m cmd hcode
  simp only [resource_manager_process_tpm2_command, hq, Bool.false_eq_true, if_false,
    resource_manager_flush_context, hcode, beq_self_eq_true, if_true, bne_self_eq_false,
    Bool.not_true, htype]
  simp [hlook]

/-- CLAIM C3: a CreatePrimary/Load/LoadExternal command arriving while the
connection's transient map is full is rejected with a synthesized
`TSS2_RESMGR_RC_OBJECT_MEMORY` response, no broker call, and an unchanged
map; commands with any other code are never quota-rejected. -/
theorem claim_C3 (brk : AccessBroker) (m : HandleMap) (cmd : Tpm2Command) :
    ((tpm2_command_get_code cmd = TPM_CC_CreatePrimary ∨
      tpm2_command_get_code cmd = TPM_CC_Load ∨
      tpm2_command_get_code cmd = TPM_CC_LoadExternal) →
      handle_map_is_full m = true →
      resource_manager_process_tpm2_command brk m cmd =
        { map := m,
          sink := [some (tpm2_response_new_rc cmd.conn TSS2_RESMGR_RC_OBJECT_MEMORY)],
          calls := [], touched := [], fatal := false, ub := false }) ∧
    (tpm2_command_get_code cmd ≠ TPM_CC_CreatePrimary →
      tpm2_command_get_code cmd ≠ TPM_CC_Load →
      tpm2_command_get_code cmd ≠ TPM_CC_LoadExternal →
      resource_manager_is_over_object_quota m cmd = false) := by
  constructor
  · intro hc hf
    have hq : resource_manager_is_over_object_quota m cmd = true := by
      rcases hc with h | h | h <;>
        simp only [tpm2_command_get_code] at h <;>
        simp [resource_manager_is_over_object_quota, tpm2_command_get_code, h, hf]
    simp only [resource_manager_process_tpm2_command, hq, if_true]
  · intro h1 h2 h3
    simp only [tpm2_command_get_code] at h1 h2 h3
    simp [resource_manager_is_over_object_quota, tpm2_command_get_code, h1, h2, h3]

/-- CLAIM C5: FlushContext on a transient handle absent from the map
synthesizes a response whose rc is the RESMGR error level combined with
`TPM_RC_HANDLE + TPM_RC_P + TPM_RC_1`, leaves the map unchanged, and does
not call the broker. -/
theorem claim_C5 (brk : AccessBroker) (m : HandleMap) (cmd : Tpm2Command)
    (hcode : tpm2_command_get_code cmd = TPM_CC_FlushContext)
    (htype : tpm2_command_get_flush_handle cmd / 2 ^ HR_SHIFT = TPM_HT_TRANSIENT)
    (hlook : handle_map_vlookup m (tpm2_command_get_flush_handle cmd) = none) :
    resource_manager_process_tpm2_command brk m cmd =
      { map := m,
        sink := [some (tpm2_response_new_rc cmd.conn
          (RM_RC (TPM_RC_HANDLE + TPM_RC_P + TPM_RC_1)))],
        calls := [], touched := [], fatal := false, ub := false } := by
  have hq := is_over_quota_false_of_flush m cmd hcode
  simp only [resource_manager_process_tpm2_command, hq, Bool.false_eq_true, if_false,
    resource_manager_flush_context, hcode, beq_self_eq_true, if_true, bne_self_eq_false,
    Bool.not_true, htype]
  simp [hlook]

/-- CLAIM C6: FlushContext on a handle whose type byte is not TRANSIENT is
forwarded to the broker unchanged and the broker's response is enqueued
unchanged, with no HandleMap modification. -/
theorem claim_C6 (brk : AccessBroker) (m : HandleMap) (cmd : Tpm2Command)
    (hcode : tpm2_command_get_code cmd = TPM_CC_FlushContext)
    (htype : tpm2_command_get_flush_handle cmd / 2 ^ HR_SHIFT ≠ TPM_HT_TRANSIENT) :
    resource_manager_process_tpm2_command brk m cmd =
      { map := m, sink := [(brk.send_command cmd).1],
        calls := [BrokerCall.send cmd], touched := [], fatal := false,
        ub := false } := by
  have hq := is_over_quota_false_of_flush m cmd hcode
  simp only [resource_manager_process_tpm2_command, hq, Bool.false_eq_true, if_false,
    resource_manager_flush_context, hcode, beq_self_eq_true, if_true, bne_self_eq_false,
    Bool.not_true]
  simp [htype]

/-- Witness for C3: a CreatePrimary against the full map is rejected with
the object-memory rc with no broker call and the map intact. -/
theorem claim_C3_witness :
    resource_manager_process_tpm2_command witBroker witMapFull
        { conn := 1, code := TPM_CC_CreatePrimary, handles := [], flushHandle := 0 } =
      { map := witMapFull,
        sink := [some (tpm2_response_new_rc 1 TSS2_RESMGR_RC_OBJECT_MEMORY)],
        calls := [], touched := [], fatal := false, ub := false } :=
  (claim_C3 witBroker witMapFull
    { conn := 1, code := TPM_CC_CreatePrimary, handles := [], flushHandle := 0 }).1
    (Or.inl rfl) (by decide)

/-- Witness for C4: flushing the managed vhandle 0x80000001 empties the
map, synthesizes success, and never calls the broker. -/
theorem claim_C4_witness :
    resource_manager_process_tpm2_command witBroker witMap
        { conn := 1, code := TPM_CC_FlushContext, handles := [],
          flushHandle := 0x80000001 } =
      { map := handle_map_remove witMap 0x80000001,
        sink := [some (tpm2_response_new_rc 1 TSS2_RC_SUCCESS)],
        calls := [], touched := [], fatal := false, ub := false } :=
  claim_C4 witBroker witMap
    { conn := 1, code := TPM_CC_FlushContext, handles := [], flushHandle := 0x80000001 }
    { vhandle := 0x80000001, phandle := 0, context := 7 }
    rfl (by decide) (by decide)

/-- Witness for C5: flushing the unknown transient vhandle 0x80ABCDEF
yields the RESMGR handle/parameter/1 error and changes nothing. -/
theorem claim_C5_witness :
    resource_manager_process_tpm2_command witBroker witMap
        { conn := 1, code := TPM_CC_FlushContext, handles := [],
          flushHandle := 0x80ABCDEF } =
      { map := witMap,
        sink := [some (tpm2_response_new_rc 1
          (RM_RC (TPM_RC_HANDLE + TPM_RC_P + TPM_RC_1)))],
        calls := [], touched := [], fatal := false, ub := false } :=
  claim_C5 witBroker witMap
    { conn := 1, code := TPM_CC_FlushContext, handles := [], flushHandle := 0x80ABCDEF }
    rfl (by decide) (by decide)

/-- Witness for C6: flushing the session handle 0x03000000 forwards the
command to the broker and returns its response unchanged. -/
theorem claim_C6_witness :
    resource_manager_process_tpm2_command witBroker witMap
        { conn := 1, code := TPM_CC_FlushContext, handles := [],
          flushHandle := 0x03000000 } =
      { map := witMap,
        sink := [(witBroker.send_command
          { conn := 1, code := TPM_CC_FlushContext, handles := [],
            flushHandle := 0x03000000 }).1],
        calls := [BrokerCall.send
          { conn := 1, code := TPM_CC_FlushContext, handles := [],
            flushHandle := 0x03000000 }],
        touched := [], fatal := false, ub := false } :=
  claim_C6 witBroker witMap
    { conn := 1, code := TPM_CC_FlushContext, handles := [], flushHandle := 0x03000000 }
    rfl (by decide)

/-- CLAIM C1, counterexample: with a broker whose context_load fails
(rc 0x101) on a command whose transient handle is mapped, the command is
not aborted: the broker send still happens (`BrokerCall.send` appears in
the trace) and the enqueued response is the broker's success response,
not one carrying the load error. -/
theorem claim_C1_counterexample :
    (resource_manager_process_tpm2_command ceBrokerLoadFail witMap ceUseCmd).calls =
      [BrokerCall.load 7, BrokerCall.send ceUseCmd] ∧
    (resource_manager_process_tpm2_command ceBrokerLoadFail witMap ceUseCmd).sink =
      [some { conn := 1, rc := 0, hasHandle := false, handle := 0 }] := by
  constructor <;> rfl

theorem mem_send_mid (a : List BrokerCall) (c : Tpm2Command) (b : List BrokerCall) :
    BrokerCall.send c ∈ a ++ BrokerCall.send c :: b :=
  List.mem_append_right _ (List.mem_cons_self _ _)

theorem mem_send_mid2 (a : List BrokerCall) (c : Tpm2Command)
    (b d : List BrokerCall) :
    BrokerCall.send c ∈ (a ++ BrokerCall.send c :: b) ++ d :=
  List.mem_append_left _ (mem_send_mid a c b)

/-- CLAIM C1 (amended): a context_load failure during command rewriting
does not abort the command: for every non-FlushContext command that
passes the quota gate the broker send is performed regardless of load
failures, and (unless the vhandle allocator rolled over fatally) exactly
one response is enqueued on the sink. -/
theorem claim_C1_amended (brk : AccessBroker) (m : HandleMap) (cmd : Tpm2Command)
    (hcode : tpm2_command_get_code cmd ≠ TPM_CC_FlushContext)
    (hq : resource_manager_is_over_object_quota m cmd = false) :
    (∃ c, BrokerCall.send c ∈
      (resource_manager_process_tpm2_command brk m cmd).calls) ∧
    ((resource_manager_process_tpm2_command brk m cmd).fatal = false →
      (resource_manager_process_tpm2_command brk m cmd).sink.length = 1) := by
  have hfcb : (tpm2_command_get_code cmd == TPM_CC_FlushContext) = false := by
    simp [hcode]
  simp only [resource_manager_process_tpm2_command, hq, Bool.false_eq_true, if_false,
    hfcb]
  constructor
  · repeat' split
    all_goals first
      | exact ⟨_, mem_send_mid _ _ _⟩
      | exact ⟨_, mem_send_mid2 _ _ _ _⟩
  · repeat' split
    all_goals intro h
    all_goals first
      | rfl
      | simp at h

/-- Witness for the amended C1: on the concrete load-failure run the send
call is present in the trace. -/
theorem claim_C1_witness :
    ∃ c, BrokerCall.send c ∈
      (resource_manager_process_tpm2_command ceBrokerLoadFail witMap ceUseCmd).calls :=
  (claim_C1_amended ceBrokerLoadFail witMap ceUseCmd (by decide) (by decide)).1

/-- CLAIM C2, counterexample: the entry for vhandle 0x80000001 has
phandle 0x80000042 ≠ 0, yet command rewriting still calls context_load on
its context (the claim says the load would be skipped, i.e. no load
call). -/
theorem claim_C2_counterexample :
    (resource_manager_load_contexts witBroker ceMapPhandleSet ceUseCmd
      (List.replicate 4 none) 3).calls = [BrokerCall.load 42] := by
  rfl

/-- CLAIM C2 (amended): during command rewriting, context_load is called
for every transient handle slot whose map entry is present, regardless of
the entry's current phandle; `resource_manager_virt_to_phys` performs the
load unconditionally. -/
theorem claim_C2_amended :
    (∀ (brk : AccessBroker) (m : HandleMap) (cmd : Tpm2Command)
      (e : HandleMapEntry) (i : Nat),
      (resource_manager_virt_to_phys brk m cmd e i).calls =
        [BrokerCall.load e.context]) ∧
    (∀ (brk : AccessBroker) (m : HandleMap) (cmd : Tpm2Command)
      (v : Nat) (e : HandleMapEntry),
      cmd.handles = [v] → v / 2 ^ HR_SHIFT = TPM_HT_TRANSIENT →
      handle_map_vlookup m v = some e →
      (resource_manager_load_contexts brk m cmd
        (List.replicate 4 none) 3).calls = [BrokerCall.load e.context]) := by
  have ha : ∀ (brk : AccessBroker) (m : HandleMap) (cmd : Tpm2Command)
      (e : HandleMapEntry) (i : Nat),
      (resource_manager_virt_to_phys brk m cmd e i).calls =
        [BrokerCall.load e.context] := by
    intro brk m cmd e i
    simp only [resource_manager_virt_to_phys]
    split <;> rfl
  refine ⟨ha, ?_⟩
  intro brk m cmd v e hh htype hlook
  have hhc : ¬ (tpm2_command_get_handle_count cmd > 3) := by
    simp [tpm2_command_get_handle_count, hh]
  have htb : (v / 2 ^ HR_SHIFT == TPM_HT_TRANSIENT) = true := by simp [htype]
  simp only [resource_manager_load_contexts, if_neg hhc, hh, load_contexts_loop,
    htb, if_true, hlook]
  split <;> simp [load_contexts_loop, ha]

/-- Witness for the amended C2: loading the single-slot command against a
map whose entry is swapped out calls context_load on context 7. -/
theorem claim_C2_witness :
    (resource_manager_load_contexts witBroker witMap ceUseCmd
      (List.replicate 4 none) 3).calls = [BrokerCall.load 7] :=
  claim_C2_amended.2 witBroker witMap ceUseCmd 0x80000001
    { vhandle := 0x80000001, phandle := 0, context := 7 }
    rfl (by decide) (by decide)

/-- CLAIM C9, counterexample: a FlushContext on a session handle whose
broker send fails enqueues the NULL response itself on the sink, not a
synthesized response carrying the broker's rc. -/
theorem claim_C9_counterexample :
    (resource_manager_process_tpm2_command ceBrokerNullSend witMap
      ceSessionFlushCmd).sink = [none] := by
  rfl

/-- CLAIM C9 (amended): every processed command causes exactly one sink
enqueue (unless the vhandle allocator rolled over fatally), and the
enqueued object is a proper response in every case except a FlushContext
forwarded to the broker whose send fails, in which case the NULL broker
response is enqueued unconverted; processing itself is total, so no error
reaches the caller of enqueue. -/
theorem claim_C9_amended (brk : AccessBroker) (m : HandleMap) (cmd : Tpm2Command) :
    ((resource_manager_process_tpm2_command brk m cmd).fatal = false →
      (resource_manager_process_tpm2_command brk m cmd).sink.length = 1) ∧
    (∀ x ∈ (resource_manager_process_tpm2_command brk m cmd).sink, x = none →
      tpm2_command_get_code cmd = TPM_CC_FlushContext ∧
      tpm2_command_get_flush_handle cmd / 2 ^ HR_SHIFT ≠ TPM_HT_TRANSIENT ∧
      (brk.send_command cmd).1 = none) := by
  by_cases hq : resource_manager_is_over_object_quota m cmd = true
  · simp only [resource_manager_process_tpm2_command, hq, if_true]
    exact ⟨fun _ => rfl, by intro x hx hn; simp at hx; simp [hx] at hn⟩
  · rw [Bool.not_eq_true] at hq
    by_cases hfc : tpm2_command_get_code cmd = TPM_CC_FlushContext
    · have hfcb : (tpm2_command_get_code cmd == TPM_CC_FlushContext) = true := by
        simp [hfc]
      have hbne : (tpm2_command_get_code cmd != TPM_CC_FlushContext) = false := by
        simp [bne, hfcb]
      simp only [resource_manager_process_tpm2_command, hq, Bool.false_eq_true,
        if_false, hfcb, if_true]
      simp only [resource_manager_flush_context, hbne, Bool.false_eq_true, if_false]
      by_cases htype : tpm2_command_get_flush_handle cmd / 2 ^ HR_SHIFT =
          TPM_HT_TRANSIENT
      · have htb : (tpm2_command_get_flush_handle cmd / 2 ^ HR_SHIFT ==
            TPM_HT_TRANSIENT) = true := by simp [htype]
        simp only [htb, if_true]
        cases hlook : handle_map_vlookup m (tpm2_command_get_flush_handle cmd) with
        | some e =>
          simp only [hlook]
          refine ⟨fun _ => rfl, ?_⟩
          intro x hx hn
          simp only [List.mem_singleton] at hx
          rw [hx] at hn
          exact absurd hn (by simp)
        | none =>
          simp only [hlook]
          refine ⟨fun _ => rfl, ?_⟩
          intro x hx hn
          simp only [List.mem_singleton] at hx
          rw [hx] at hn
          exact absurd hn (by simp)
      · have htypeb : (tpm2_command_get_flush_handle cmd / 2 ^ HR_SHIFT ==
            TPM_HT_TRANSIENT) = false := by simp [htype]
        simp only [htypeb, Bool.false_eq_true, if_false]
        refine ⟨fun _ => rfl, ?_⟩
        intro x hx hn
        simp only [List.mem_singleton] at hx
        exact ⟨hfc, htype, by rw [hx] at hn; exact hn⟩
    · have hfcb : (tpm2_command_get_code cmd == TPM_CC_FlushContext) = false := by
        simp [hfc]
      simp only [resource_manager_process_tpm2_command, hq, Bool.false_eq_true,
        if_false, hfcb]
      constructor
      · repeat' split
        all_goals intro h
        all_goals first
          | rfl
          | simp at h
      · repeat' split
        all_goals intro x hx hn
        all_goals simp at hx
        all_goals rw [hx] at hn
        all_goals exact absurd hn (by simp)

/-- Witness for the amended C9: the ordinary one-handle command enqueues
exactly one object. -/
theorem claim_C9_witness :
    (resource_manager_process_tpm2_command witBroker witMap ceUseCmd).sink.length = 1 :=
  (claim_C9_amended witBroker witMap ceUseCmd).1 (by rfl)

theorem all_some_take (l : List (Option Nat)) (n : Nat)
    (h : ∀ j, j < n → ∃ v, l[j]? = some (some v)) :
    ∀ s ∈ l.take n, s ≠ none := by
  induction l generalizing n with
  | nil => intro s hs; simp at hs
  | cons a t ih =>
    intro s hs
    cases n with
    | zero => simp at hs
    | succ k =>
      simp only [List.take_succ_cons] at hs
      rcases List.mem_cons.mp hs with rfl | hs'
      · obtain ⟨v, hv⟩ := h 0 (Nat.succ_pos k)
        simp only [List.getElem?_cons_zero, Option.some.injEq] at hv
        simp [hv]
      · exact ih k (fun j hj => by simpa using h (j + 1) (Nat.succ_lt_succ hj)) s hs'

theorem evict_touched_len (brk : AccessBroker) (m : HandleMap)
    (slots : List (Option Nat)) :
    (resource_manager_evict_entries brk m slots).touched.length ≤ slots.length := by
  induction slots generalizing m with
  | nil => simp [resource_manager_evict_entries]
  | cons s rest ih =>
    cases s with
    | none =>
      simp only [resource_manager_evict_entries, List.length_cons]
      exact (ih m).trans (Nat.le_succ _)
    | some vh =>
      simp only [resource_manager_evict_entries, List.length_cons]
      cases hl : handle_map_vlookup m vh with
      | none => simp only [hl]; exact (ih m).trans (Nat.le_succ _)
      | some e => simp only [hl, List.length_cons]; exact Nat.succ_le_succ (ih _)

theorem evict_ub_false (brk : AccessBroker) (m : HandleMap)
    (slots : List (Option Nat)) (h : ∀ s ∈ slots, s ≠ none) :
    (resource_manager_evict_entries brk m slots).ub = false := by
  induction slots generalizing m with
  | nil => rfl
  | cons s rest ih =>
    cases s with
    | none => exact absurd rfl (h none (List.mem_cons_self _ _))
    | some vh =>
      simp only [resource_manager_evict_entries]
      cases hl : handle_map_vlookup m vh with
      | none => simp only [hl]; exact ih m (fun s hs => h s (List.mem_cons_of_mem _ hs))
      | some e => simp only [hl]; exact ih _ (fun s hs => h s (List.mem_cons_of_mem _ hs))

theorem load_contexts_loop_inv (brk : AccessBroker) :
    ∀ (hs : List Nat) (m : HandleMap) (cmd : Tpm2Command) (i : Nat)
      (arr : List (Option Nat)) (ec rc : Nat) (calls : List BrokerCall) (ub : Bool),
    ec + hs.length ≤ arr.length →
    (∀ j, j < ec → ∃ v, arr[j]? = some (some v)) →
    (load_contexts_loop brk m cmd hs i arr ec rc calls ub).ub = ub ∧
    (load_contexts_loop brk m cmd hs i arr ec rc calls ub).entry_count ≤ ec + hs.length ∧
    (load_contexts_loop brk m cmd hs i arr ec rc calls ub).entries.length = arr.length ∧
    (∀ j, j < (load_contexts_loop brk m cmd hs i arr ec rc calls ub).entry_count →
      ∃ v, (load_contexts_loop brk m cmd hs i arr ec rc calls ub).entries[j]? =
        some (some v)) := by
  intro hs
  induction hs with
  | nil =>
    intro m cmd i arr ec rc calls ub hlen hpre
    refine ⟨by simp [load_contexts_loop], by simp [load_contexts_loop],
      by simp [load_contexts_loop], by simpa [load_contexts_loop] using hpre⟩
  | cons h rest ih =>
    intro m cmd i arr ec rc calls ub hlen hpre
    simp only [List.length_cons] at hlen
    simp only [load_contexts_loop]
    by_cases ht : (h / 2 ^ HR_SHIFT == TPM_HT_TRANSIENT) = true
    · simp only [ht, if_true]
      cases hl : handle_map_vlookup m h with
      | none =>
        simp only [List.length_cons]
        have := ih m cmd (i + 1) arr ec rc calls ub (by omega) hpre
        exact ⟨this.1, this.2.1.trans (by omega), this.2.2.1, this.2.2.2⟩
      | some entry =>
        by_cases hrc :
            ((resource_manager_virt_to_phys brk m cmd entry i).rc == TSS2_RC_SUCCESS)
              = true
        · simp only [hrc, if_true]
          have hlt : ec < arr.length := by omega
          have hw : entriesWrite arr ec (some h) = (arr.set ec (some h), false) := by
            simp [entriesWrite, hlt]
          rw [hw]
          have hpre' : ∀ j, j < ec + 1 →
              ∃ v, (arr.set ec (some h))[j]? = some (some v) := by
            intro j hj
            rcases Nat.lt_or_ge j ec with hje | hje
            · obtain ⟨v, hv⟩ := hpre j hje
              exact ⟨v, by rw [List.getElem?_set_ne (by omega)]; exact hv⟩
            · have : j = ec := by omega
              subst this
              exact ⟨h, by rw [List.getElem?_set_self hlt]⟩
          have := ih (resource_manager_virt_to_phys brk m cmd entry i).map
            (resource_manager_virt_to_phys brk m cmd entry i).cmd (i + 1)
            (arr.set ec (some h)) (ec + 1)
            (resource_manager_virt_to_phys brk m cmd entry i).rc
            (calls ++ (resource_manager_virt_to_phys brk m cmd entry i).calls)
            (ub || false) (by simp only [List.length_set]; omega) hpre'
          refine ⟨by rw [this.1]; simp, this.2.1.trans (by simp only [List.length_cons]; omega),
            by rw [this.2.2.1]; simp, this.2.2.2⟩
        · simp only [hrc, Bool.false_eq_true, if_false]
          have := ih (resource_manager_virt_to_phys brk m cmd entry i).map
            (resource_manager_virt_to_phys brk m cmd entry i).cmd (i + 1)
            arr ec (resource_manager_virt_to_phys brk m cmd entry i).rc
            (calls ++ (resource_manager_virt_to_phys brk m cmd entry i).calls)
            ub (by omega) hpre
          exact ⟨this.1, this.2.1.trans (by simp only [List.length_cons]; omega), this.2.2.1, this.2.2.2⟩
    · simp only [ht, Bool.false_eq_true, if_false]
      have := ih m cmd (i + 1) arr ec rc calls ub (by omega) hpre
      exact ⟨this.1, this.2.1.trans (by simp only [List.length_cons]; omega), this.2.2.1, this.2.2.2⟩

theorem load_contexts_inv (brk : AccessBroker) (m : HandleMap) (cmd : Tpm2Command)
    (hhc : tpm2_command_get_handle_count cmd ≤ 3) :
    (resource_manager_load_contexts brk m cmd (List.replicate 4 none) 3).ub = false ∧
    (resource_manager_load_contexts brk m cmd (List.replicate 4 none) 3).entry_count ≤
      tpm2_command_get_handle_count cmd ∧
    (resource_manager_load_contexts brk m cmd
      (List.replicate 4 none) 3).entries.length = 4 ∧
    (∀ j, j < (resource_manager_load_contexts brk m cmd
        (List.replicate 4 none) 3).entry_count →
      ∃ v, (resource_manager_load_contexts brk m cmd
        (List.replicate 4 none) 3).entries[j]? = some (some v)) := by
  have hzero : ¬ (tpm2_command_get_handle_count cmd > 3) := by omega
  simp only [resource_manager_load_contexts, if_neg hzero]
  have hhc' : cmd.handles.length ≤ 3 := hhc
  have key := load_contexts_loop_inv brk cmd.handles m cmd 0 (List.replicate 4 none) 0
    TSS2_RC_SUCCESS [] false (by simp; omega) (by intro j hj; omega)
  refine ⟨key.1, ?_, by rw [key.2.2.1]; simp, key.2.2.2⟩
  have := key.2.1
  simpa [tpm2_command_get_handle_count] using this

theorem tail_bounds (brk : AccessBroker) (vmap : HandleMap) (RESP : Tpm2Response)
    (arr : List (Option Nat)) (ec hc : Nat)
    (hlen : arr.length = 4) (hech : ec ≤ hc) (hec3 : ec ≤ 3)
    (hpre : ∀ j, j < ec → ∃ v, arr[j]? = some (some v)) :
    (entriesWrite arr ec (resource_manager_virtualize_handle vmap RESP).entry).2 =
      false ∧
    (resource_manager_evict_entries brk
      (resource_manager_virtualize_handle vmap RESP).map
      ((entriesWrite arr ec (resource_manager_virtualize_handle vmap RESP).entry).1.take
        (if (resource_manager_virtualize_handle vmap RESP).entry.isSome then ec + 1
         else ec))).ub = false ∧
    decide ((entriesWrite arr ec
        (resource_manager_virtualize_handle vmap RESP).entry).1.length <
      (if (resource_manager_virtualize_handle vmap RESP).entry.isSome then ec + 1
       else ec)) = false ∧
    (resource_manager_evict_entries brk
      (resource_manager_virtualize_handle vmap RESP).map
      ((entriesWrite arr ec (resource_manager_virtualize_handle vmap RESP).entry).1.take
        (if (resource_manager_virtualize_handle vmap RESP).entry.isSome then ec + 1
         else ec))).touched.length ≤ hc + 1 := by
  have hlt : ec < arr.length := by omega
  cases hv : (resource_manager_virtualize_handle vmap RESP).entry with
  | some vh =>
    have hw : entriesWrite arr ec (some vh) = (arr.set ec (some vh), false) := by
      simp [entriesWrite, hlt]
    simp only [hw, Option.isSome_some, if_true]
    have hpre' : ∀ j, j < ec + 1 → ∃ v, (arr.set ec (some vh))[j]? = some (some v) := by
      intro j hj
      rcases Nat.lt_or_ge j ec with hje | hje
      · obtain ⟨v, hv2⟩ := hpre j hje
        exact ⟨v, by rw [List.getElem?_set_ne (by omega)]; exact hv2⟩
      · have : j = ec := by omega
        subst this
        exact ⟨vh, by rw [List.getElem?_set_self hlt]⟩
    refine ⟨trivial, evict_ub_false _ _ _ (all_some_take _ _ hpre'), ?_, ?_⟩
    · exact decide_eq_false (by simp only [List.length_set]; omega)
    · exact (evict_touched_len _ _ _).trans
        (by rw [List.length_take]; simp only [List.length_set]; omega)
  | none =>
    have hw : entriesWrite arr ec none = (arr.set ec none, false) := by
      simp [entriesWrite, hlt]
    simp only [hw, Option.isSome_none, Bool.false_eq_true, if_false]
    have hpre' : ∀ j, j < ec → ∃ v, (arr.set ec none)[j]? = some (some v) := by
      intro j hj
      obtain ⟨v, hv2⟩ := hpre j hj
      exact ⟨v, by rw [List.getElem?_set_ne (by omega)]; exact hv2⟩
    refine ⟨trivial, evict_ub_false _ _ _ (all_some_take _ _ hpre'), ?_, ?_⟩
    · exact decide_eq_false (by simp only [List.length_set]; omega)
    · exact (evict_touched_len _ _ _).trans
        (by rw [List.length_take]; simp only [List.length_set]; omega)

/-- CLAIM C10: for every non-FlushContext command with at most 3 handles
that passes the quota gate, no out-of-bounds index is used on the 4-slot
touched-entry array and the eviction loop visits only initialized slots
(`ub = false`); the eviction loop visits at most `handle_count + 1`
entries; and `resource_manager_load_contexts` sets the count to at most
`handle_count`. -/
theorem claim_C10 (brk : AccessBroker) (m : HandleMap) (cmd : Tpm2Command)
    (hfc : tpm2_command_get_code cmd ≠ TPM_CC_FlushContext)
    (hq : resource_manager_is_over_object_quota m cmd = false)
    (hhc : tpm2_command_get_handle_count cmd ≤ 3) :
    (resource_manager_process_tpm2_command brk m cmd).ub = false ∧
    (resource_manager_process_tpm2_command brk m cmd).touched.length ≤
      tpm2_command_get_handle_count cmd + 1 ∧
    (resource_manager_load_contexts brk m cmd (List.replicate 4 none) 3).entry_count ≤
      tpm2_command_get_handle_count cmd := by
  obtain ⟨hub0, hec0, hlen0, hpre0⟩ := load_contexts_inv brk m cmd hhc
  refine ?_
  have hfcb : (tpm2_command_get_code cmd == TPM_CC_FlushContext) = false := by
    simp [hfc]
  simp only [resource_manager_process_tpm2_command, hq, Bool.false_eq_true, if_false,
    hfcb]
  generalize hLR : (if tpm2_command_get_handle_count cmd > 0 then
      resource_manager_load_contexts brk m cmd (List.replicate ENTRY_COUNT none)
        (ENTRY_COUNT - 1)
    else
      { rc := TSS2_RC_SUCCESS, map := m, cmd := cmd,
        entries := List.replicate ENTRY_COUNT none, entry_count := 0,
        calls := [], ub := false }) = LR
  have hub : LR.ub = false := by
    rw [← hLR]; split
    · exact hub0
    · rfl
  have hec : LR.entry_count ≤ tpm2_command_get_handle_count cmd := by
    rw [← hLR]; split
    · exact hec0
    · exact Nat.zero_le _
  have hlen : LR.entries.length = 4 := by
    rw [← hLR]; split
    · exact hlen0
    · simp [ENTRY_COUNT]
  have hpre : ∀ j, j < LR.entry_count → ∃ v, LR.entries[j]? = some (some v) := by
    rw [← hLR]; split
    · exact hpre0
    · intro j hj; simp at hj
  have hec3 : LR.entry_count ≤ 3 := hec.trans hhc
  refine ⟨?_, ?_, hec0⟩
  · split
    · split
      · exact hub
      · have tb := tail_bounds brk LR.map
          (match (brk.send_command LR.cmd).1 with
           | some r => r
           | none => tpm2_response_new_rc cmd.conn (brk.send_command LR.cmd).2)
          LR.entries LR.entry_count (tpm2_command_get_handle_count cmd)
          hlen hec hec3 hpre
        simp [hub, tb.1, tb.2.1, tb.2.2.1]
    · have h1 := evict_ub_false brk LR.map (LR.entries.take LR.entry_count)
        (all_some_take _ _ hpre)
      have h2 : ¬ (LR.entries.length < LR.entry_count) := by omega
      simp [hub, h1, decide_eq_false h2]
  · split
    · split
      · simp
      · exact (tail_bounds brk LR.map
          (match (brk.send_command LR.cmd).1 with
           | some r => r
           | none => tpm2_response_new_rc cmd.conn (brk.send_command LR.cmd).2)
          LR.entries LR.entry_count (tpm2_command_get_handle_count cmd)
          hlen hec hec3 hpre).2.2.2
    · exact (evict_touched_len _ _ _).trans (by rw [List.length_take]; omega)

/-- Witness for C10: the ordinary one-handle command stays in bounds. -/
theorem claim_C10_witness :
    (resource_manager_process_tpm2_command witBroker witMap ceUseCmd).ub = false ∧
    (resource_manager_process_tpm2_command witBroker witMap ceUseCmd).touched.length ≤
      tpm2_command_get_handle_count ceUseCmd + 1 ∧
    (resource_manager_load_contexts witBroker witMap ceUseCmd
      (List.replicate 4 none) 3).entry_count ≤
      tpm2_command_get_handle_count ceUseCmd :=
  claim_C10 witBroker witMap ceUseCmd (by decide) (by decide) (by decide)

theorem find?_map_key (l : List (Nat × HandleMapEntry)) (v : Nat)
    (f : HandleMapEntry → HandleMapEntry) :
    (l.map (fun p => if p.1 == v then (p.1, f p.2) else p)).find?
        (fun p => p.1 == v) =
      (l.find? (fun p => p.1 == v)).map (fun p => (p.1, f p.2)) := by
  induction l with
  | nil => rfl
  | cons a t ih =>
    obtain ⟨k, e⟩ := a
    by_cases h : (k == v) = true
    · simp only [List.map_cons, List.find?_cons, h, if_true]
      rfl
    · have hf : (k == v) = false := by simpa using h
      simp only [List.map_cons, List.find?_cons, hf, Bool.false_eq_true, if_false, ih]

theorem find?_map_key_other (l : List (Nat × HandleMapEntry)) (v w : Nat)
    (f : HandleMapEntry → HandleMapEntry) (hne : w ≠ v) :
    (l.map (fun p => if p.1 == v then (p.1, f p.2) else p)).find?
        (fun p => p.1 == w) =
      l.find? (fun p => p.1 == w) := by
  induction l with
  | nil => rfl
  | cons a t ih =>
    obtain ⟨k, e⟩ := a
    by_cases hv : (k == v) = true
    · have hkv : k = v := by simpa using hv
      have hw : (k == w) = false := by
        subst hkv
        exact beq_eq_false_iff_ne.mpr (fun h => hne h.symm)
      simp only [List.map_cons, List.find?_cons, hv, if_true, hw, Bool.false_eq_true,
        if_false, ih]
    · have hvf : (k == v) = false := by simpa using hv
      by_cases hw : (k == w) = true
      · simp only [List.map_cons, List.find?_cons, hvf, Bool.false_eq_true, if_false, hw]
      · have hwf : (k == w) = false := by simpa using hw
        simp only [List.map_cons, List.find?_cons, hvf, hwf, Bool.false_eq_true,
          if_false, ih]

theorem vlookup_modify_self (m : HandleMap) (v : Nat)
    (f : HandleMapEntry → HandleMapEntry) :
    handle_map_vlookup (handle_map_modify_entry m v f) v =
      (handle_map_vlookup m v).map f := by
  unfold handle_map_vlookup handle_map_modify_entry
  simp only [find?_map_key]
  cases m.entries.find? (fun p => p.1 == v) <;> rfl

theorem vlookup_modify_other (m : HandleMap) (v w : Nat)
    (f : HandleMapEntry → HandleMapEntry) (hne : w ≠ v) :
    handle_map_vlookup (handle_map_modify_entry m v f) w =
      handle_map_vlookup m w := by
  unfold handle_map_vlookup handle_map_modify_entry
  rw [find?_map_key_other _ _ _ _ hne]

theorem modify_keys (m : HandleMap) (v : Nat) (f : HandleMapEntry → HandleMapEntry) :
    (handle_map_modify_entry m v f).entries.map Prod.fst =
      m.entries.map Prod.fst := by
  unfold handle_map_modify_entry
  simp only [List.map_map]
  congr 1
  funext p
  by_cases h : (p.1 == v) = true <;> simp [h, Function.comp]

theorem wf_modify (m : HandleMap) (v : Nat) (f : HandleMapEntry → HandleMapEntry)
    (hwf : handle_map_wf m) (hf : ∀ e, (f e).vhandle = e.vhandle) :
    handle_map_wf (handle_map_modify_entry m v f) := by
  intro p hp
  unfold handle_map_modify_entry at hp
  simp only [List.mem_map] at hp
  obtain ⟨q, hq, hpq⟩ := hp
  by_cases h : (q.1 == v) = true
  · rw [if_pos h] at hpq
    subst hpq
    simp [hf, hwf q hq]
  · rw [if_neg h] at hpq
    subst hpq
    exact hwf q hq

theorem vlookup_insert_self (m : HandleMap) (v : Nat) (e : HandleMapEntry)
    (h : handle_map_vlookup m v = none) :
    handle_map_vlookup (handle_map_insert m v e) v = some e := by
  unfold handle_map_vlookup at *
  unfold handle_map_insert
  have h' : m.entries.find? (fun p => p.1 == v) = none := by
    cases hf : m.entries.find? (fun p => p.1 == v) with
    | none => rfl
    | some p => rw [hf] at h; simp at h
  simp [List.find?_append, h']

theorem vlookup_insert_other (m : HandleMap) (v w : Nat) (e : HandleMapEntry)
    (hne : w ≠ v) :
    handle_map_vlookup (handle_map_insert m v e) w = handle_map_vlookup m w := by
  unfold handle_map_vlookup handle_map_insert
  simp only [List.find?_append]
  cases hf : m.entries.find? (fun p => p.1 == w) with
  | some p => simp
  | none =>
    have : ((v, e).1 == w) = false := by simp; exact fun h => hne h.symm
    simp [this]

theorem wf_insert (m : HandleMap) (v : Nat) (e : HandleMapEntry)
    (hwf : handle_map_wf m) (he : e.vhandle = v) :
    handle_map_wf (handle_map_insert m v e) := by
  intro p hp
  unfold handle_map_insert at hp
  simp only [List.mem_append, List.mem_singleton] at hp
  rcases hp with hp | hp
  · exact hwf p hp
  · subst hp; exact he

theorem vlookup_eq_none_iff (m : HandleMap) (v : Nat) :
    handle_map_vlookup m v = none ↔ v ∉ m.entries.map Prod.fst := by
  unfold handle_map_vlookup
  constructor
  · intro h hmem
    simp only [List.mem_map] at hmem
    obtain ⟨p, hp, hpv⟩ := hmem
    have h' : m.entries.find? (fun p => p.1 == v) = none := by
      cases hf : m.entries.find? (fun p => p.1 == v) with
      | none => rfl
      | some q => rw [hf] at h; simp at h
    rw [List.find?_eq_none] at h'
    exact h' p hp (by simp [hpv])
  · intro hmem
    have h' : m.entries.find? (fun p => p.1 == v) = none := by
      rw [List.find?_eq_none]
      intro p hp hbeq
      exact hmem (List.mem_map.mpr ⟨p, hp, by simpa using hbeq⟩)
    simp [h']

theorem vlookup_wf (m : HandleMap) (v : Nat) (e : HandleMapEntry)
    (hwf : handle_map_wf m) (h : handle_map_vlookup m v = some e) :
    e.vhandle = v := by
  unfold handle_map_vlookup at h
  cases hf : m.entries.find? (fun p => p.1 == v) with
  | none => rw [hf] at h; simp at h
  | some p =>
    rw [hf] at h
    simp only [Option.map] at h
    rw [Option.some.injEq] at h
    subst h
    have hpv : (p.1 == v) = true := @List.find?_some _ (fun q => q.1 == v) p _ hf
    have := hwf p (List.mem_of_find?_eq_some hf)
    simpa [this] using hpv

theorem flushsave_vhandle (brk : AccessBroker) (e : HandleMapEntry) :
    (resource_manager_flushsave_context brk e).entry.vhandle = e.vhandle := by
  simp only [resource_manager_flushsave_context]
  split
  · split <;> rfl
  · rfl

theorem flushsave_done (brk : AccessBroker) (e : HandleMapEntry)
    (h : e.phandle = 0 ∨ e.phandle / 2 ^ HR_SHIFT = TPM_HT_TRANSIENT ∨
      (brk.context_saveflush e.phandle).1 ≠ TSS2_RC_SUCCESS) :
    (resource_manager_flushsave_context brk e).entry.phandle = 0 ∨
    (brk.context_saveflush
        (resource_manager_flushsave_context brk e).entry.phandle).1 ≠
      TSS2_RC_SUCCESS := by
  simp only [resource_manager_flushsave_context]
  split
  · split
    · left; rfl
    · rename_i hns
      right
      simpa using hns
  · rename_i hnt
    rcases h with h0 | htr | hf
    · exact Or.inl h0
    · exact absurd (by simpa using htr) hnt
    · exact Or.inr hf

theorem virt_to_phys_spec (brk : AccessBroker) (m : HandleMap) (cmd : Tpm2Command)
    (e : HandleMapEntry) (i : Nat) :
    (resource_manager_virt_to_phys brk m cmd e i).rc =
      (brk.context_load e.context).1 ∧
    ((brk.context_load e.context).1 = TSS2_RC_SUCCESS →
      (resource_manager_virt_to_phys brk m cmd e i).map =
        handle_map_set_entry_phandle m e.vhandle (brk.context_load e.context).2) ∧
    ((brk.context_load e.context).1 ≠ TSS2_RC_SUCCESS →
      (resource_manager_virt_to_phys brk m cmd e i).map = m) := by
  simp only [resource_manager_virt_to_phys]
  split
  · rename_i h
    exact ⟨rfl, fun _ => rfl, fun hn => absurd (by simpa using h) hn⟩
  · rename_i h
    exact ⟨rfl, fun he => absurd he (by simpa using h), fun _ => rfl⟩

theorem virtualize_entry_some (m : HandleMap) (resp : Tpm2Response) (fvh : Nat)
    (h : (resource_manager_virtualize_handle m resp).entry = some fvh) :
    fvh = (handle_map_next_vhandle m).1 ∧
    resp.handle / 2 ^ HR_SHIFT = TPM_HT_TRANSIENT ∧
    (resource_manager_virtualize_handle m resp).map =
      handle_map_insert (handle_map_next_vhandle m).2 fvh
        (handle_map_entry_new resp.handle fvh) := by
  simp only [resource_manager_virtualize_handle] at h ⊢
  by_cases ht : (tpm2_response_get_handle resp / 2 ^ HR_SHIFT == TPM_HT_TRANSIENT)
      = true
  · simp only [ht, if_true] at h ⊢
    by_cases hz : ((handle_map_next_vhandle m).1 == 0) = true
    · simp only [hz, if_true] at h
      exact absurd h (by simp)
    · simp only [hz, Bool.false_eq_true, if_false] at h ⊢
      simp only [Option.some.injEq] at h
      subst h
      exact ⟨rfl, by simpa [tpm2_response_get_handle] using ht, rfl⟩
  · simp only [ht, Bool.false_eq_true, if_false] at h
    exact absurd h (by simp)

theorem virtualize_entry_none (m : HandleMap) (resp : Tpm2Response)
    (h : (resource_manager_virtualize_handle m resp).entry = none)
    (hf : (resource_manager_virtualize_handle m resp).fatal = false) :
    (resource_manager_virtualize_handle m resp).map = m := by
  simp only [resource_manager_virtualize_handle] at h hf ⊢
  by_cases ht : (tpm2_response_get_handle resp / 2 ^ HR_SHIFT == TPM_HT_TRANSIENT)
      = true
  · simp only [ht, if_true] at h hf ⊢
    by_cases hz : ((handle_map_next_vhandle m).1 == 0) = true
    · simp only [hz, if_true] at hf
      exact absurd hf (by simp)
    · simp only [hz, Bool.false_eq_true, if_false] at h
      exact absurd h (by simp)
  · simp only [ht, Bool.false_eq_true, if_false]

theorem wf_set_entry (m : HandleMap) (vh : Nat) (e' : HandleMapEntry)
    (hwf : handle_map_wf m) (he' : e'.vhandle = vh) :
    handle_map_wf (handle_map_set_entry m vh e') := by
  intro p hp
  unfold handle_map_set_entry handle_map_modify_entry at hp
  simp only [List.mem_map] at hp
  obtain ⟨q, hq, hpq⟩ := hp
  by_cases h : (q.1 == vh) = true
  · rw [if_pos h] at hpq
    subst hpq
    have : q.1 = vh := by simpa using h
    simp [he', this]
  · rw [if_neg h] at hpq
    subst hpq
    exact hwf q hq

theorem step_ready (brk : AccessBroker) (m : HandleMap) (vh : Nat)
    (e : HandleMapEntry) (hvl : handle_map_vlookup m vh = some e) :
    ∀ vh0, entry_ready brk m vh0 →
      entry_ready brk (handle_map_set_entry m vh
        (resource_manager_flushsave_context brk e).entry) vh0 := by
  intro vh0 hr e' hl'
  by_cases hne : vh0 = vh
  · subst hne
    unfold handle_map_set_entry at hl'
    rw [vlookup_modify_self, hvl] at hl'
    simp only [Option.map] at hl'
    rw [Option.some.injEq] at hl'
    subst hl'
    rcases flushsave_done brk e (hr e hvl) with h0 | hfail
    · exact Or.inl h0
    · exact Or.inr (Or.inr hfail)
  · unfold handle_map_set_entry at hl'
    rw [vlookup_modify_other _ _ _ _ hne] at hl'
    exact hr e' hl'

theorem step_done (brk : AccessBroker) (m : HandleMap) (vh : Nat)
    (e : HandleMapEntry) (hvl : handle_map_vlookup m vh = some e) :
    ∀ vh0, entry_done brk m vh0 →
      entry_done brk (handle_map_set_entry m vh
        (resource_manager_flushsave_context brk e).entry) vh0 := by
  intro vh0 hd e' hl'
  by_cases hne : vh0 = vh
  · subst hne
    unfold handle_map_set_entry at hl'
    rw [vlookup_modify_self, hvl] at hl'
    simp only [Option.map] at hl'
    rw [Option.some.injEq] at hl'
    subst hl'
    have hready : e.phandle = 0 ∨ e.phandle / 2 ^ HR_SHIFT = TPM_HT_TRANSIENT ∨
        (brk.context_saveflush e.phandle).1 ≠ TSS2_RC_SUCCESS := by
      rcases hd e hvl with h0 | hfail
      · exact Or.inl h0
      · exact Or.inr (Or.inr hfail)
    exact flushsave_done brk e hready
  · unfold handle_map_set_entry at hl'
    rw [vlookup_modify_other _ _ _ _ hne] at hl'
    exact hd e' hl'

theorem step_establish (brk : AccessBroker) (m : HandleMap) (vh : Nat)
    (e : HandleMapEntry) (hvl : handle_map_vlookup m vh = some e)
    (hready : entry_ready brk m vh) :
    entry_done brk (handle_map_set_entry m vh
      (resource_manager_flushsave_context brk e).entry) vh := by
  intro e' hl'
  unfold handle_map_set_entry at hl'
  rw [vlookup_modify_self, hvl] at hl'
  simp only [Option.map] at hl'
  rw [Option.some.injEq] at hl'
  subst hl'
  exact flushsave_done brk e (hready e hvl)

theorem evict_establishes (brk : AccessBroker) :
    ∀ (slots : List (Option Nat)) (m : HandleMap), handle_map_wf m →
    handle_map_wf (resource_manager_evict_entries brk m slots).map ∧
    (∀ vh0, entry_ready brk m vh0 →
      entry_ready brk (resource_manager_evict_entries brk m slots).map vh0) ∧
    (∀ vh0, entry_done brk m vh0 →
      entry_done brk (resource_manager_evict_entries brk m slots).map vh0) ∧
    ((∀ s ∈ slots, ∀ vh, s = some vh → entry_ready brk m vh) →
      ∀ vh ∈ (resource_manager_evict_entries brk m slots).touched,
        entry_done brk (resource_manager_evict_entries brk m slots).map vh) := by
  intro slots
  induction slots with
  | nil =>
    intro m hwf
    refine ⟨hwf, fun _ h => h, fun _ h => h, ?_⟩
    intro _ vh hvh
    simp [resource_manager_evict_entries] at hvh
  | cons s rest ih =>
    intro m hwf
    cases s with
    | none =>
      simp only [resource_manager_evict_entries]
      obtain ⟨w, r, d, t⟩ := ih m hwf
      refine ⟨w, r, d, ?_⟩
      intro hs vh hvh
      exact t (fun s hs' vh' he => hs s (List.mem_cons_of_mem _ hs') vh' he) vh
        (by simpa using hvh)
    | some vh =>
      simp only [resource_manager_evict_entries]
      cases hvl : handle_map_vlookup m vh with
      | none =>
        simp only [hvl]
        obtain ⟨w, r, d, t⟩ := ih m hwf
        exact ⟨w, r, d, fun hs vh0 hvh0 =>
          t (fun s hs' vh' he => hs s (List.mem_cons_of_mem _ hs') vh' he) vh0 hvh0⟩
      | some e =>
        simp only [hvl]
        have hevh : e.vhandle = vh := vlookup_wf m vh e hwf hvl
        have hwf1 : handle_map_wf (handle_map_set_entry m vh
            (resource_manager_flushsave_context brk e).entry) :=
          wf_set_entry _ _ _ hwf (by rw [flushsave_vhandle]; exact hevh)
        obtain ⟨w, r, d, t⟩ := ih _ hwf1
        refine ⟨w, ?_, ?_, ?_⟩
        · intro vh0 h0
          exact r vh0 (step_ready brk m vh e hvl vh0 h0)
        · intro vh0 h0
          exact d vh0 (step_done brk m vh e hvl vh0 h0)
        · intro hs vh0 hvh0
          rcases List.mem_cons.mp (by simpa using hvh0) with rfl | hmem
          · have hready : entry_ready brk m vh0 :=
              hs (some vh0) (List.mem_cons_self _ _) vh0 rfl
            exact d vh0 (step_establish brk m vh0 e hvl hready)
          · exact t (fun s hs' vh' he =>
              step_ready brk m vh e hvl vh' (hs s (List.mem_cons_of_mem _ hs') vh' he))
              vh0 hmem

theorem modify_nextOffset (m : HandleMap) (v : Nat)
    (f : HandleMapEntry → HandleMapEntry) :
    (handle_map_modify_entry m v f).nextOffset = m.nextOffset := rfl

theorem setph_ready (brk : AccessBroker) (m : HandleMap) (v ph : Nat)
    (hph : ph / 2 ^ HR_SHIFT = TPM_HT_TRANSIENT) :
    entry_ready brk (handle_map_set_entry_phandle m v ph) v ∧
    (∀ vh0, entry_ready brk m vh0 →
      entry_ready brk (handle_map_set_entry_phandle m v ph) vh0) := by
  constructor
  · intro e' hl'
    unfold handle_map_set_entry_phandle at hl'
    rw [vlookup_modify_self] at hl'
    cases hm : handle_map_vlookup m v with
    | none => rw [hm] at hl'; simp at hl'
    | some e =>
      rw [hm] at hl'
      simp only [Option.map] at hl'
      rw [Option.some.injEq] at hl'
      subst hl'
      exact Or.inr (Or.inl hph)
  · intro vh0 _ e' hl'
    by_cases hne : vh0 = v
    · subst hne
      unfold handle_map_set_entry_phandle at hl'
      rw [vlookup_modify_self] at hl'
      cases hm : handle_map_vlookup m vh0 with
      | none => rw [hm] at hl'; simp at hl'
      | some e =>
        rw [hm] at hl'
        simp only [Option.map] at hl'
        rw [Option.some.injEq] at hl'
        subst hl'
        exact Or.inr (Or.inl hph)
    · unfold handle_map_set_entry_phandle at hl'
      rw [vlookup_modify_other _ _ _ _ hne] at hl'
      rename_i hr
      exact hr e' hl'

theorem load_loop_state (brk : AccessBroker)
    (hbrk : ∀ ctx, (brk.context_load ctx).1 = TSS2_RC_SUCCESS →
      (brk.context_load ctx).2 / 2 ^ HR_SHIFT = TPM_HT_TRANSIENT) :
    ∀ (hs : List Nat) (m : HandleMap) (cmd : Tpm2Command) (i : Nat)
      (arr : List (Option Nat)) (ec rc : Nat) (calls : List BrokerCall) (ub : Bool),
    handle_map_wf m →
    ec + hs.length ≤ arr.length →
    handle_map_wf (load_contexts_loop brk m cmd hs i arr ec rc calls ub).map ∧
    (load_contexts_loop brk m cmd hs i arr ec rc calls ub).map.entries.map Prod.fst =
      m.entries.map Prod.fst ∧
    (load_contexts_loop brk m cmd hs i arr ec rc calls ub).map.nextOffset =
      m.nextOffset ∧
    (∀ vh0, entry_ready brk m vh0 →
      entry_ready brk (load_contexts_loop brk m cmd hs i arr ec rc calls ub).map vh0) ∧
    ((∀ j, j < ec → ∀ vh, arr[j]? = some (some vh) → entry_ready brk m vh) →
      ∀ j, j < (load_contexts_loop brk m cmd hs i arr ec rc calls ub).entry_count →
        ∀ vh, (load_contexts_loop brk m cmd hs i arr ec rc calls ub).entries[j]? =
          some (some vh) →
          entry_ready brk (load_contexts_loop brk m cmd hs i arr ec rc calls ub).map
            vh) := by
  intro hs
  induction hs with
  | nil =>
    intro m cmd i arr ec rc calls ub hwf _
    refine ⟨hwf, rfl, rfl, fun _ h => h, ?_⟩
    intro hp j hj vh hvh
    exact hp j hj vh hvh
  | cons h rest ih =>
    intro m cmd i arr ec rc calls ub hwf hlen
    simp only [List.length_cons] at hlen
    simp only [load_contexts_loop]
    by_cases ht : (h / 2 ^ HR_SHIFT == TPM_HT_TRANSIENT) = true
    · simp only [ht, if_true]
      cases hvl : handle_map_vlookup m h with
      | none =>
        exact ih m cmd (i + 1) arr ec rc calls ub hwf (by omega)
      | some entry =>
        have spec := virt_to_phys_spec brk m cmd entry i
        by_cases hrc :
            ((resource_manager_virt_to_phys brk m cmd entry i).rc == TSS2_RC_SUCCESS)
              = true
        · simp only [hrc, if_true]
          have hrc0 : (brk.context_load entry.context).1 = TSS2_RC_SUCCESS := by
            rw [← spec.1]; simpa using hrc
          have hmap : (resource_manager_virt_to_phys brk m cmd entry i).map =
              handle_map_set_entry_phandle m entry.vhandle
                (brk.context_load entry.context).2 := spec.2.1 hrc0
          have hevh : entry.vhandle = h := vlookup_wf m h entry hwf hvl
          have hph : (brk.context_load entry.context).2 / 2 ^ HR_SHIFT =
              TPM_HT_TRANSIENT := hbrk _ hrc0
          rw [hevh] at hmap
          have hwf' : handle_map_wf (handle_map_set_entry_phandle m h
              (brk.context_load entry.context).2) :=
            wf_modify m h _ hwf (fun e => rfl)
          have hlt : ec < arr.length := by omega
          have hw : entriesWrite arr ec (some h) = (arr.set ec (some h), false) := by
            simp [entriesWrite, hlt]
          simp only [hw, hmap]
          have key := ih (handle_map_set_entry_phandle m h
              (brk.context_load entry.context).2)
            (resource_manager_virt_to_phys brk m cmd entry i).cmd (i + 1)
            (arr.set ec (some h)) (ec + 1)
            (resource_manager_virt_to_phys brk m cmd entry i).rc
            (calls ++ (resource_manager_virt_to_phys brk m cmd entry i).calls)
            (ub || false) hwf' (by simp only [List.length_set]; omega)
          have hkeys : (handle_map_set_entry_phandle m h
              (brk.context_load entry.context).2).entries.map Prod.fst =
            m.entries.map Prod.fst := modify_keys m h _
          have hoff : (handle_map_set_entry_phandle m h
              (brk.context_load entry.context).2).nextOffset = m.nextOffset :=
            modify_nextOffset m h _
          refine ⟨key.1, key.2.1.trans hkeys, key.2.2.1.trans hoff, ?_, ?_⟩
          · intro vh0 hr
            exact key.2.2.2.1 vh0 ((setph_ready brk m h _ hph).2 vh0 hr)
          · intro hp j hj vh hvh
            refine key.2.2.2.2 ?_ j hj vh hvh
            intro j' hj' vh' hvh'
            rcases Nat.lt_or_ge j' ec with hje | hje
            · rw [List.getElem?_set_ne (by omega)] at hvh'
              exact (setph_ready brk m h _ hph).2 vh' (hp j' hje vh' hvh')
            · have : j' = ec := by omega
              subst this
              rw [List.getElem?_set_self hlt] at hvh'
              simp only [Option.some.injEq] at hvh'
              subst hvh'
              exact (setph_ready brk m h _ hph).1
        · simp only [hrc, Bool.false_eq_true, if_false]
          have hrcne : (brk.context_load entry.context).1 ≠ TSS2_RC_SUCCESS := by
            intro hc; rw [← spec.1] at hc; simp [hc] at hrc
          have hmap : (resource_manager_virt_to_phys brk m cmd entry i).map = m :=
            spec.2.2 hrcne
          rw [hmap]
          exact ih m (resource_manager_virt_to_phys brk m cmd entry i).cmd (i + 1)
            arr ec (resource_manager_virt_to_phys brk m cmd entry i).rc
            (calls ++ (resource_manager_virt_to_phys brk m cmd entry i).calls)
            ub hwf (by omega)
    · simp only [ht, Bool.false_eq_true, if_false]
      exact ih m cmd (i + 1) arr ec rc calls ub hwf (by omega)

theorem load_contexts_state (brk : AccessBroker)
    (hbrk : ∀ ctx, (brk.context_load ctx).1 = TSS2_RC_SUCCESS →
      (brk.context_load ctx).2 / 2 ^ HR_SHIFT = TPM_HT_TRANSIENT)
    (m : HandleMap) (cmd : Tpm2Command) (hwf : handle_map_wf m)
    (hhc : tpm2_command_get_handle_count cmd ≤ 3) :
    handle_map_wf
      (resource_manager_load_contexts brk m cmd (List.replicate 4 none) 3).map ∧
    (resource_manager_load_contexts brk m cmd
      (List.replicate 4 none) 3).map.entries.map Prod.fst =
      m.entries.map Prod.fst ∧
    (resource_manager_load_contexts brk m cmd
      (List.replicate 4 none) 3).map.nextOffset = m.nextOffset ∧
    (∀ j, j < (resource_manager_load_contexts brk m cmd
        (List.replicate 4 none) 3).entry_count →
      ∀ vh, (resource_manager_load_contexts brk m cmd
          (List.replicate 4 none) 3).entries[j]? = some (some vh) →
        entry_ready brk
          (resource_manager_load_contexts brk m cmd (List.replicate 4 none) 3).map
          vh) := by
  have hzero : ¬ (tpm2_command_get_handle_count cmd > 3) := by omega
  simp only [resource_manager_load_contexts, if_neg hzero]
  have hhc' : cmd.handles.length ≤ 3 := hhc
  have key := load_loop_state brk hbrk cmd.handles m cmd 0 (List.replicate 4 none) 0
    TSS2_RC_SUCCESS [] false hwf (by simp; omega)
  exact ⟨key.1, key.2.1, key.2.2.1,
    key.2.2.2.2 (fun j hj vh hvh => absurd hj (Nat.not_lt_zero j))⟩

theorem exists_getElem_of_mem_take (l : List (Option Nat)) (n : Nat)
    (s : Option Nat) (hs : s ∈ l.take n) : ∃ j, j < n ∧ l[j]? = some s := by
  induction l generalizing n with
  | nil => simp at hs
  | cons a t ihl =>
    cases n with
    | zero => simp at hs
    | succ k =>
      simp only [List.take_succ_cons] at hs
      rcases List.mem_cons.mp hs with rfl | hs'
      · exact ⟨0, Nat.succ_pos k, by simp⟩
      · obtain ⟨j, hj, hget⟩ := ihl k hs'
        exact ⟨j + 1, Nat.succ_lt_succ hj, by simpa using hget⟩

theorem insert_ready (brk : AccessBroker) (m : HandleMap) (v : Nat)
    (e : HandleMapEntry) (hfresh : handle_map_vlookup m v = none)
    (he : e.phandle / 2 ^ HR_SHIFT = TPM_HT_TRANSIENT) :
    entry_ready brk (handle_map_insert m v e) v ∧
    (∀ vh0, entry_ready brk m vh0 →
      entry_ready brk (handle_map_insert m v e) vh0) := by
  constructor
  · intro e' hl'
    rw [vlookup_insert_self m v e hfresh] at hl'
    rw [Option.some.injEq] at hl'
    subst hl'
    exact Or.inr (Or.inl he)
  · intro vh0 hr e' hl'
    by_cases hne : vh0 = v
    · subst hne
      rw [vlookup_insert_self m vh0 e hfresh] at hl'
      rw [Option.some.injEq] at hl'
      subst hl'
      exact Or.inr (Or.inl he)
    · rw [vlookup_insert_other m v vh0 e hne] at hl'
      exact hr e' hl'

/-- CLAIM C8: for every command with at most 3 handle slots, context
eviction over the touched-entry list leaves every touched entry with
`phandle = 0` unless its saveflush failed (whether or not the TPM command
itself succeeded); per entry, a transient phandle triggers exactly one
context_saveflush call which on success replaces the context and clears
the phandle, and a non-transient phandle is skipped without contacting
the broker.  Hypotheses: the map is well formed, successful loads return
transient physical handles, and the vhandle allocator does not collide
with a live key. -/
theorem claim_C8 (brk : AccessBroker) (m : HandleMap) (cmd : Tpm2Command)
    (hwf : handle_map_wf m)
    (hbrk : ∀ ctx, (brk.context_load ctx).1 = TSS2_RC_SUCCESS →
      (brk.context_load ctx).2 / 2 ^ HR_SHIFT = TPM_HT_TRANSIENT)
    (hfresh : handle_map_vlookup m (handle_map_next_vhandle m).1 = none)
    (hhc : tpm2_command_get_handle_count cmd ≤ 3) :
    (∀ vh ∈ (resource_manager_process_tpm2_command brk m cmd).touched,
      entry_done brk (resource_manager_process_tpm2_command brk m cmd).map vh) ∧
    (∀ e : HandleMapEntry, e.phandle / 2 ^ HR_SHIFT = TPM_HT_TRANSIENT →
      (resource_manager_flushsave_context brk e).calls =
        [BrokerCall.saveflush e.phandle] ∧
      ((brk.context_saveflush e.phandle).1 = TSS2_RC_SUCCESS →
        (resource_manager_flushsave_context brk e).entry =
          { e with context := (brk.context_saveflush e.phandle).2, phandle := 0 })) ∧
    (∀ e : HandleMapEntry, e.phandle / 2 ^ HR_SHIFT ≠ TPM_HT_TRANSIENT →
      resource_manager_flushsave_context brk e =
        { rc := TSS2_RC_SUCCESS, entry := e, calls := [] }) := by
  refine ⟨?_, ?_, ?_⟩
  · by_cases hq : resource_manager_is_over_object_quota m cmd = true
    · simp only [resource_manager_process_tpm2_command, hq, if_true]
      intro vh hvh
      simp at hvh
    · rw [Bool.not_eq_true] at hq
      by_cases hfc : tpm2_command_get_code cmd = TPM_CC_FlushContext
      · have hfcb : (tpm2_command_get_code cmd == TPM_CC_FlushContext) = true := by
          simpa using hfc
        simp only [resource_manager_process_tpm2_command, hq, Bool.false_eq_true,
          if_false, hfcb, if_true]
        intro vh hvh
        simp at hvh
      · have hfcb : (tpm2_command_get_code cmd == TPM_CC_FlushContext) = false := by
          simp [hfc]
        simp only [resource_manager_process_tpm2_command, hq, Bool.false_eq_true,
          if_false, hfcb]
        generalize hLR : (if tpm2_command_get_handle_count cmd > 0 then
            resource_manager_load_contexts brk m cmd (List.replicate ENTRY_COUNT none)
              (ENTRY_COUNT - 1)
          else
            { rc := TSS2_RC_SUCCESS, map := m, cmd := cmd,
              entries := List.replicate ENTRY_COUNT none, entry_count := 0,
              calls := [], ub := false }) = LR
        have state := load_contexts_state brk hbrk m cmd hwf hhc
        have hLRwf : handle_map_wf LR.map := by
          rw [← hLR]; split
          · exact state.1
          · exact hwf
        have hLRkeys : LR.map.entries.map Prod.fst = m.entries.map Prod.fst := by
          rw [← hLR]; split
          · exact state.2.1
          · rfl
        have hLRoff : LR.map.nextOffset = m.nextOffset := by
          rw [← hLR]; split
          · exact state.2.2.1
          · rfl
        have hLRslots : ∀ j, j < LR.entry_count →
            ∀ vh, LR.entries[j]? = some (some vh) → entry_ready brk LR.map vh := by
          rw [← hLR]; split
          · exact state.2.2.2
          · intro j hj; simp at hj
        have hLRlen : LR.entries.length = 4 := by
          rw [← hLR]; split
          · exact (load_contexts_inv brk m cmd hhc).2.2.1
          · simp [ENTRY_COUNT]
        have hLRec : LR.entry_count ≤ 3 := by
          rw [← hLR]; split
          · exact ((load_contexts_inv brk m cmd hhc).2.1).trans hhc
          · exact Nat.zero_le _
        have hfreshLR : handle_map_vlookup LR.map
            (handle_map_next_vhandle LR.map).1 = none := by
          have h1 : (handle_map_next_vhandle LR.map).1 =
              (handle_map_next_vhandle m).1 := by
            unfold handle_map_next_vhandle
            rw [hLRoff]
          rw [h1, vlookup_eq_none_iff, hLRkeys, ← vlookup_eq_none_iff]
          exact hfresh
        have hlt : LR.entry_count < LR.entries.length := by omega
        split
        · split
          · intro vh hvh
            simp at hvh
          · rename_i hnf
            cases hv : (resource_manager_virtualize_handle LR.map
                (match (brk.send_command LR.cmd).1 with
                 | some r => r
                 | none => tpm2_response_new_rc cmd.conn
                     (brk.send_command LR.cmd).2)).entry with
            | none =>
              have hmapeq := virtualize_entry_none _ _ hv (by simpa using hnf)
              have hw : entriesWrite LR.entries LR.entry_count none =
                  (LR.entries.set LR.entry_count none, false) := by
                simp [entriesWrite, hlt]
              simp only [hv, hw, Option.isSome_none, Bool.false_eq_true, if_false,
                hmapeq]
              refine (evict_establishes brk _ LR.map hLRwf).2.2.2 ?_
              intro s hs vh' he
              rw [he] at hs
              obtain ⟨j, hj, hget⟩ := exists_getElem_of_mem_take _ _ _ hs
              rw [List.getElem?_set_ne (by omega)] at hget
              exact hLRslots j hj vh' hget
            | some fvh =>
              obtain ⟨hfv, htr, hmapv⟩ := virtualize_entry_some _ _ _ hv
              have hw : entriesWrite LR.entries LR.entry_count (some fvh) =
                  (LR.entries.set LR.entry_count (some fvh), false) := by
                simp [entriesWrite, hlt]
              simp only [hv, hw, Option.isSome_some, if_true, hmapv]
              have hwfnext : handle_map_wf (handle_map_next_vhandle LR.map).2 :=
                fun p hp => hLRwf p hp
              have hfreshnext : handle_map_vlookup
                  (handle_map_next_vhandle LR.map).2 fvh = none := by
                rw [hfv]
                exact hfreshLR
              have hwfins : handle_map_wf
                  (handle_map_insert (handle_map_next_vhandle LR.map).2 fvh
                    (handle_map_entry_new (match (brk.send_command LR.cmd).1 with
                       | some r => r
                       | none => tpm2_response_new_rc cmd.conn
                           (brk.send_command LR.cmd).2).handle fvh)) :=
                wf_insert _ _ _ hwfnext rfl
              refine (evict_establishes brk _ _ hwfins).2.2.2 ?_
              intro s hs vh' he
              rw [he] at hs
              obtain ⟨j, hj, hget⟩ := exists_getElem_of_mem_take _ _ _ hs
              rcases Nat.lt_or_ge j LR.entry_count with hje | hje
              · rw [List.getElem?_set_ne (by omega)] at hget
                exact (insert_ready brk _ fvh _ hfreshnext htr).2 vh'
                  (hLRslots j hje vh' hget)
              · have hjec : j = LR.entry_count := by omega
                subst hjec
                rw [List.getElem?_set_self hlt] at hget
                simp only [Option.some.injEq] at hget
                subst hget
                exact (insert_ready brk _ fvh _ hfreshnext htr).1
        · refine (evict_establishes brk _ LR.map hLRwf).2.2.2 ?_
          intro s hs vh' he
          rw [he] at hs
          obtain ⟨j, hj, hget⟩ := exists_getElem_of_mem_take _ _ _ hs
          exact hLRslots j hj vh' hget
  · intro e he
    have ht : (e.phandle / 2 ^ HR_SHIFT == TPM_HT_TRANSIENT) = true := by
      simpa using he
    constructor
    · simp only [resource_manager_flushsave_context, ht, if_true]
      split <;> rfl
    · intro hrc
      have hrcb : ((brk.context_saveflush e.phandle).1 == TSS2_RC_SUCCESS) = true := by
        simpa using hrc
      simp only [resource_manager_flushsave_context, ht, if_true, hrcb]
  · intro e he
    have ht : (e.phandle / 2 ^ HR_SHIFT == TPM_HT_TRANSIENT) = false := by
      simpa using he
    simp only [resource_manager_flushsave_context, ht, Bool.false_eq_true, if_false]

/-- Witness for C8 at a concrete run: every touched entry of the
one-handle command ends with phandle 0 (or a failed saveflush), and the
per-entry flushsave contract holds. -/
theorem claim_C8_witness :
    (∀ vh ∈ (resource_manager_process_tpm2_command witBroker8 witMap
        ceUseCmd).touched,
      entry_done witBroker8
        (resource_manager_process_tpm2_command witBroker8 witMap ceUseCmd).map vh) ∧
    (∀ e : HandleMapEntry, e.phandle / 2 ^ HR_SHIFT = TPM_HT_TRANSIENT →
      (resource_manager_flushsave_context witBroker8 e).calls =
        [BrokerCall.saveflush e.phandle] ∧
      ((witBroker8.context_saveflush e.phandle).1 = TSS2_RC_SUCCESS →
        (resource_manager_flushsave_context witBroker8 e).entry =
          { e with context := (witBroker8.context_saveflush e.phandle).2, phandle := 0 })) ∧
    (∀ e : HandleMapEntry, e.phandle / 2 ^ HR_SHIFT ≠ TPM_HT_TRANSIENT →
      resource_manager_flushsave_context witBroker8 e =
        { rc := TSS2_RC_SUCCESS, entry := e, calls := [] }) :=
  claim_C8 witBroker8 witMap ceUseCmd
    (by show ∀ p ∈ witMap.entries, (p.2).vhandle = p.1; decide)
    (fun ctx h =>
      (by decide : (0x80000001 : Nat) / 2 ^ HR_SHIFT = TPM_HT_TRANSIENT))
    (by decide) (by decide)

/-- CLAIM C7: response virtualization happens iff the response reports a
handle and its type byte is TRANSIENT.  Then a fresh vhandle is
allocated, a new entry `(phandle, vhandle)` is inserted at the vhandle,
the response handle is overwritten with the vhandle, and the entry is
appended to the touched list (observable as the eviction saveflush of the
physical handle).  A response whose handle is not transient is never
rewritten, and a response reporting no handle leaves map and response
untouched. -/
theorem claim_C7 (brk : AccessBroker) (m : HandleMap) (r : Tpm2Response)
    (cmd : Tpm2Command) :
    (r.handle / 2 ^ HR_SHIFT = TPM_HT_TRANSIENT →
      (handle_map_next_vhandle m).1 ≠ 0 →
      resource_manager_virtualize_handle m r =
        { entry := some (handle_map_next_vhandle m).1,
          map := handle_map_insert (handle_map_next_vhandle m).2
            (handle_map_next_vhandle m).1
            (handle_map_entry_new r.handle (handle_map_next_vhandle m).1),
          resp := tpm2_response_set_handle r (handle_map_next_vhandle m).1,
          fatal := false }) ∧
    (r.handle / 2 ^ HR_SHIFT ≠ TPM_HT_TRANSIENT →
      resource_manager_virtualize_handle m r =
        { entry := none, map := m, resp := r, fatal := false }) ∧
    (tpm2_command_get_code cmd ≠ TPM_CC_FlushContext →
      resource_manager_is_over_object_quota m cmd = false →
      cmd.handles = [] →
      ∀ rr rc0, brk.send_command cmd = (some rr, rc0) →
      ((rr.hasHandle = false →
        resource_manager_process_tpm2_command brk m cmd =
          { map := m, sink := [some rr], calls := [BrokerCall.send cmd],
            touched := [], fatal := false, ub := false }) ∧
       (rr.hasHandle = true → rr.handle / 2 ^ HR_SHIFT ≠ TPM_HT_TRANSIENT →
        resource_manager_process_tpm2_command brk m cmd =
          { map := m, sink := [some rr], calls := [BrokerCall.send cmd],
            touched := [], fatal := false, ub := false }) ∧
       (rr.hasHandle = true → rr.handle / 2 ^ HR_SHIFT = TPM_HT_TRANSIENT →
        (handle_map_next_vhandle m).1 ≠ 0 →
        handle_map_vlookup m (handle_map_next_vhandle m).1 = none →
        (resource_manager_process_tpm2_command brk m cmd).sink =
          [some (tpm2_response_set_handle rr (handle_map_next_vhandle m).1)] ∧
        (resource_manager_process_tpm2_command brk m cmd).calls =
          [BrokerCall.send cmd, BrokerCall.saveflush rr.handle] ∧
        (resource_manager_process_tpm2_command brk m cmd).touched =
          [(handle_map_next_vhandle m).1] ∧
        ((brk.context_saveflush rr.handle).1 = TSS2_RC_SUCCESS →
          handle_map_vlookup (resource_manager_process_tpm2_command brk m cmd).map
            (handle_map_next_vhandle m).1 =
            some { vhandle := (handle_map_next_vhandle m).1, phandle := 0,
                   context := (brk.context_saveflush rr.handle).2 })))) := by
  have hA : ∀ (m' : HandleMap) (r' : Tpm2Response),
      r'.handle / 2 ^ HR_SHIFT = TPM_HT_TRANSIENT →
      (handle_map_next_vhandle m').1 ≠ 0 →
      resource_manager_virtualize_handle m' r' =
        { entry := some (handle_map_next_vhandle m').1,
          map := handle_map_insert (handle_map_next_vhandle m').2
            (handle_map_next_vhandle m').1
            (handle_map_entry_new r'.handle (handle_map_next_vhandle m').1),
          resp := tpm2_response_set_handle r' (handle_map_next_vhandle m').1,
          fatal := false } := by
    intro m' r' ht hz
    have htb : (r'.handle / 2 ^ HR_SHIFT == TPM_HT_TRANSIENT) = true := by
      simpa using ht
    have hzb : ((handle_map_next_vhandle m').1 == 0) = false := by simpa using hz
    simp only [resource_manager_virtualize_handle, tpm2_response_get_handle, htb,
      if_true, hzb, Bool.false_eq_true, if_false]
  have hB : ∀ (m' : HandleMap) (r' : Tpm2Response),
      r'.handle / 2 ^ HR_SHIFT ≠ TPM_HT_TRANSIENT →
      resource_manager_virtualize_handle m' r' =
        { entry := none, map := m', resp := r', fatal := false } := by
    intro m' r' ht
    have htb : (r'.handle / 2 ^ HR_SHIFT == TPM_HT_TRANSIENT) = false := by
      simpa using ht
    simp only [resource_manager_virtualize_handle, tpm2_response_get_handle, htb,
      Bool.false_eq_true, if_false]
  refine ⟨hA m r, hB m r, ?_⟩
  intro hfc hq hhandles rr rc0 hsend
  have hfcb : (tpm2_command_get_code cmd == TPM_CC_FlushContext) = false := by
    simp [hfc]
  have hh0 : ¬ (tpm2_command_get_handle_count cmd > 0) := by
    simp [tpm2_command_get_handle_count, hhandles]
  refine ⟨?_, ?_, ?_⟩
  · intro hrr
    have hrrb : tpm2_response_has_handle rr = false := hrr
    simp only [resource_manager_process_tpm2_command, hq, Bool.false_eq_true,
      if_false, hfcb, if_neg hh0, hsend, hrrb, resource_manager_evict_entries,
      List.take_zero]
    simp
  · intro hrr htr
    have hrrb : tpm2_response_has_handle rr = true := hrr
    have hvirt := hB m rr htr
    simp only [resource_manager_process_tpm2_command, hq, Bool.false_eq_true,
      if_false, hfcb, if_neg hh0, hsend, hrrb, if_true, hvirt]
    simp [entriesWrite, resource_manager_evict_entries, ENTRY_COUNT]
  · intro hrr htr hz hfresh
    have hrrb : tpm2_response_has_handle rr = true := hrr
    have hvirt := hA m rr htr hz
    simp only [resource_manager_process_tpm2_command, hq, Bool.false_eq_true,
      if_false, hfcb, if_neg hh0, hsend, hrrb, if_true, hvirt]
    have hwrite : entriesWrite (List.replicate ENTRY_COUNT none) 0
        (some (handle_map_next_vhandle m).1) =
        ((List.replicate ENTRY_COUNT none).set 0
          (some (handle_map_next_vhandle m).1), false) := by
      simp [entriesWrite, ENTRY_COUNT]
    have htake : ((List.replicate ENTRY_COUNT none).set 0
        (some (handle_map_next_vhandle m).1)).take 1 =
        [some (handle_map_next_vhandle m).1] := by
      simp [ENTRY_COUNT, List.replicate]
    have hfresh2 : handle_map_vlookup (handle_map_next_vhandle m).2
        (handle_map_next_vhandle m).1 = none := hfresh
    have hlook : handle_map_vlookup
        (handle_map_insert (handle_map_next_vhandle m).2
          (handle_map_next_vhandle m).1
          (handle_map_entry_new rr.handle (handle_map_next_vhandle m).1))
        (handle_map_next_vhandle m).1 =
        some (handle_map_entry_new rr.handle (handle_map_next_vhandle m).1) :=
      vlookup_insert_self _ _ _ hfresh2
    simp only [handle_map_entry_new] at hlook
    have htrb : (rr.handle / 2 ^ HR_SHIFT == TPM_HT_TRANSIENT) = true := by
      simpa using htr
    simp only [hwrite, htake, resource_manager_evict_entries, hlook,
      resource_manager_flushsave_context, handle_map_entry_new, htrb, if_true]
    refine ⟨by simp, ?_, by simp, ?_⟩
    · split <;> simp
    · intro hrc
      have hrcb : ((brk.context_saveflush rr.handle).1 == TSS2_RC_SUCCESS) = true := by
        simpa using hrc
      simp only [hrcb, if_true]
      unfold handle_map_set_entry
      rw [vlookup_modify_self, hlook]
      simp [handle_map_entry_new]

/-- Witness for C7: a CreatePrimary-style run virtualizes the transient
response handle — the response is rewritten to the fresh vhandle, the new
entry is saved and flushed, and afterwards it sits in the map with
phandle 0. -/
theorem claim_C7_witness :
    (resource_manager_process_tpm2_command witBrokerCP witMapEmpty witCmdCP).sink =
      [some (tpm2_response_set_handle witRespCP
        (handle_map_next_vhandle witMapEmpty).1)] ∧
    (resource_manager_process_tpm2_command witBrokerCP witMapEmpty witCmdCP).calls =
      [BrokerCall.send witCmdCP, BrokerCall.saveflush witRespCP.handle] ∧
    (resource_manager_process_tpm2_command witBrokerCP witMapEmpty witCmdCP).touched =
      [(handle_map_next_vhandle witMapEmpty).1] ∧
    ((witBrokerCP.context_saveflush witRespCP.handle).1 = TSS2_RC_SUCCESS →
      handle_map_vlookup
        (resource_manager_process_tpm2_command witBrokerCP witMapEmpty witCmdCP).map
        (handle_map_next_vhandle witMapEmpty).1 =
        some { vhandle := (handle_map_next_vhandle witMapEmpty).1, phandle := 0,
               context := (witBrokerCP.context_saveflush witRespCP.handle).2 }) :=
  ((claim_C7 witBrokerCP witMapEmpty witRespCP witCmdCP).2.2 (by decide) (by decide)
    rfl witRespCP 0 rfl).2.2 rfl (by decide) (by decide) (by decide)
